import Mathlib

/-!
# Block delivery: filtered blocks, response senders, connection producer

A shallow embedding of `core/peer/deliverevents.go` together with the parts of
`core/comm` that the delivery subsystem relies on, and the properties proved
about them.

Conventions of the embedding

* A Go pointer that the code dereferences is an `Option`; dereferencing `none`
  is the runtime fault `Fault.nilDereference`.
* A Go function returning `(value, error)` that may also raise a runtime fault
  has result type `Outcome`: `ret v` is `(v, nil)`, `err e` is `(nil, e)` and
  `fault p` is a panic in flight.
* The decoders of package `protoutil` and the protobuf constants are imported
  by `deliverevents.go` and are not part of it; they are the fields of
  `Imports`, over which every definition is parametrised.
-/

namespace Fabric

/-! ## Values shared by the protobuf messages -/

/-- Go `[]byte`. Where the code tests a slice against `nil` the slice is an
`Option Bytes`; elsewhere a nil slice is the empty list. -/
abbrev Bytes := List Nat

/-- Go `error` values: a leaf error, or `errors.WithMessage(cause, msg)`. -/
inductive GoError where
  | leaf (msg : String)
  | WithMessage (cause : GoError) (msg : String)
  deriving DecidableEq, Repr

/-- Runtime faults (Go panics). -/
inductive Fault where
  | nilDereference
  | indexOutOfRange
  | raised (msg : String)
  deriving DecidableEq, Repr

/-- Result of a Go call returning `(value, error)`. -/
inductive Outcome (α : Type) where
  | ret (v : α)
  | err (e : GoError)
  | fault (p : Fault)
  deriving DecidableEq, Repr

/-! ## Messages of `protos/common` and `protos/peer` used by the filter -/

/-- Message `common.Envelope`. -/
structure Envelope where
  Payload : Bytes
  Signature : Bytes
  deriving DecidableEq, Repr

/-- Message `common.Header`. -/
structure Header where
  ChannelHeader : Bytes
  SignatureHeader : Bytes
  deriving DecidableEq, Repr

/-- Message `common.Payload`; `Header` is a pointer. -/
structure Payload where
  Header : Option Header
  Data : Bytes
  deriving DecidableEq, Repr

/-- Message `common.ChannelHeader` (the fields read by the filter). `Type_` is
the Go field `Type`, an `int32`. -/
structure ChannelHeader where
  Type_ : Int
  ChannelId : String
  TxId : String
  deriving DecidableEq, Repr

/-- Message `peer.TransactionAction`. -/
structure TransactionAction where
  Header : Bytes
  Payload : Bytes
  deriving DecidableEq, Repr

/-- Message `peer.Transaction`; `Actions` is a slice of pointers. -/
structure Transaction where
  Actions : List (Option TransactionAction)
  deriving DecidableEq, Repr

/-- Message `peer.ChaincodeEndorsedAction`. -/
structure ChaincodeEndorsedAction where
  ProposalResponsePayload : Bytes
  deriving DecidableEq, Repr

/-- Message `peer.ChaincodeActionPayload`; `Action` is a pointer. -/
structure ChaincodeActionPayload where
  ChaincodeProposalPayload : Bytes
  Action : Option ChaincodeEndorsedAction
  deriving DecidableEq, Repr

/-- Message `peer.ProposalResponsePayload`. -/
structure ProposalResponsePayload where
  ProposalHash : Bytes
  Extension : Bytes
  deriving DecidableEq, Repr

/-- Message `peer.ChaincodeAction`. -/
structure ChaincodeAction where
  Results : Bytes
  Events : Bytes
  deriving DecidableEq, Repr

/-- Message `peer.ChaincodeEvent`. -/
structure ChaincodeEvent where
  ChaincodeId : String
  TxId : String
  EventName : String
  Payload : Bytes
  deriving DecidableEq, Repr

/-- Message `peer.FilteredChaincodeAction`. -/
structure FilteredChaincodeAction where
  ChaincodeEvent : ChaincodeEvent
  deriving DecidableEq, Repr

/-- Message `peer.FilteredTransactionActions`. -/
structure FilteredTransactionActions where
  ChaincodeActions : List FilteredChaincodeAction
  deriving DecidableEq, Repr

/-- The oneof wrapper `peer.FilteredTransaction_TransactionActions`. -/
structure FilteredTransaction_TransactionActions where
  TransactionActions : FilteredTransactionActions
  deriving DecidableEq, Repr

/-- Message `peer.FilteredTransaction`; `Data` is the oneof field, nil unless
the transaction is an endorsing one. -/
structure FilteredTransaction where
  Txid : String
  Type_ : Int
  TxValidationCode : Nat
  Data : Option FilteredTransaction_TransactionActions
  deriving DecidableEq, Repr

/-- Message `peer.FilteredBlock`. -/
structure FilteredBlock where
  ChannelId : String
  Number : Nat
  FilteredTransactions : List FilteredTransaction
  deriving DecidableEq, Repr

/-- Message `common.BlockHeader`. -/
structure BlockHeader where
  Number : Nat
  PreviousHash : Bytes
  DataHash : Bytes
  deriving DecidableEq, Repr

/-- Message `common.BlockData`: one byte payload per transaction slot, a nil
payload being `none`. -/
structure BlockData where
  Data : List (Option Bytes)
  deriving DecidableEq, Repr

/-- Message `common.BlockMetadata`. -/
structure BlockMetadata where
  Metadata : List Bytes
  deriving DecidableEq, Repr

/-- The type `blockEvent`, an alias of `common.Block`; its three fields are
pointers. -/
structure blockEvent where
  Header : Option BlockHeader
  Data : Option BlockData
  Metadata : Option BlockMetadata
  deriving DecidableEq, Repr

/-- The type `transactionActions`, an alias of `[]*peer.TransactionAction`. -/
abbrev transactionActions := List (Option TransactionAction)

/-! ## What `deliverevents.go` imports -/

/-- The decoders of package `protoutil` called by the filter and the protobuf
constants it names. A decoder that succeeds returns a non-nil message. -/
structure Imports where
  GetEnvelopeFromBlock : Bytes → Except GoError Envelope
  GetPayload : Envelope → Except GoError Payload
  UnmarshalChannelHeader : Bytes → Except GoError ChannelHeader
  GetTransaction : Bytes → Except GoError Transaction
  GetChaincodeActionPayload : Bytes → Except GoError ChaincodeActionPayload
  GetProposalResponsePayload : Bytes → Except GoError ProposalResponsePayload
  GetChaincodeAction : Bytes → Except GoError ChaincodeAction
  GetChaincodeEvents : Bytes → Except GoError ChaincodeEvent
  HeaderType_ENDORSER_TRANSACTION : Int
  BlockMetadataIndex_TRANSACTIONS_FILTER : Nat
  Status_BAD_REQUEST : Int
  Event_Block : String
  Event_FilteredBlock : String

/-- Modelled from the spec: `util.TxValidationFlags.Flag` of
`core/ledger/util`, which is not among the sources. The transactions filter is
the per-transaction-index validation bitmap, and `Flag i` is its entry at index
`i`; indexing past its end is the fault `none`. -/
def TxValidationFlags.Flag (obj : Bytes) (txIndex : Nat) : Option Nat :=
  obj[txIndex]?

/-! ## `transactionActions.toFilteredActions` -/

/-- The loop of `toFilteredActions` (lines 191-226); the second argument is the
local `transactionActions` being filled. -/
def transactionActions.toFilteredActions.loop (P : Imports) :
    transactionActions → FilteredTransactionActions → Outcome FilteredTransactionActions
  | [], acc => .ret acc
  | none :: _, _ => .fault .nilDereference
  | some action :: rest, acc =>
    match P.GetChaincodeActionPayload action.Payload with
    | .error e =>
      .err (.WithMessage e "error unmarshal transaction action payload for block event")
    | .ok chaincodeActionPayload =>
      match chaincodeActionPayload.Action with
      | none => loop P rest acc
      | some endorsed =>
        match P.GetProposalResponsePayload endorsed.ProposalResponsePayload with
        | .error e =>
          .err (.WithMessage e "error unmarshal proposal response payload for block event")
        | .ok propRespPayload =>
          match P.GetChaincodeAction propRespPayload.Extension with
          | .error e =>
            .err (.WithMessage e "error unmarshal chaincode action for block event")
          | .ok caPayload =>
            match P.GetChaincodeEvents caPayload.Events with
            | .error e =>
              .err (.WithMessage e "error unmarshal chaincode event for block event")
            | .ok ccEvent =>
              if ccEvent.ChaincodeId ≠ "" then
                loop P rest
                  { ChaincodeActions := acc.ChaincodeActions ++
                      [{ ChaincodeEvent :=
                          { TxId := ccEvent.TxId
                            ChaincodeId := ccEvent.ChaincodeId
                            EventName := ccEvent.EventName
                            Payload := [] } }] }
              else
                loop P rest acc

/-- The method `transactionActions.toFilteredActions` (lines 189-230). -/
def transactionActions.toFilteredActions (P : Imports) (ta : transactionActions) :
    Outcome FilteredTransaction_TransactionActions :=
  match transactionActions.toFilteredActions.loop P ta { ChaincodeActions := [] } with
  | .ret acc => .ret { TransactionActions := acc }
  | .err e => .err e
  | .fault p => .fault p

/-! ## `blockEvent.toFilteredBlock` -/

/-- What one iteration of the loop of `toFilteredBlock` does: `skip` is
`continue`, `emit` sets the channel id and appends a transaction, `abort` is
`return nil, err`, `fault` is a panic. -/
inductive SlotResult where
  | skip
  | emit (channelId : String) (ft : FilteredTransaction)
  | abort (e : GoError)
  | fault (p : Fault)
  deriving DecidableEq, Repr

/-- The body of the loop of `toFilteredBlock` (lines 133-183) for the slot at
index `txIndex` holding `ebytes`. -/
def blockEvent.toFilteredBlock.body (P : Imports) (txsFltr : Bytes) (txIndex : Nat)
    (ebytes : Option Bytes) : SlotResult :=
  match ebytes with
  | none => .skip
  | some raw =>
    match P.GetEnvelopeFromBlock raw with
    | .error _ => .skip
    | .ok env =>
      match P.GetPayload env with
      | .error e => .abort (.WithMessage e "could not extract payload from envelope")
      | .ok payload =>
        match payload.Header with
        | none => .skip
        | some hdr =>
          match P.UnmarshalChannelHeader hdr.ChannelHeader with
          | .error e => .abort e
          | .ok chdr =>
            match TxValidationFlags.Flag txsFltr txIndex with
            | none => .fault .indexOutOfRange
            | some code =>
              if chdr.Type_ = P.HeaderType_ENDORSER_TRANSACTION then
                match P.GetTransaction payload.Data with
                | .error e =>
                  .abort (.WithMessage e "error unmarshal transaction payload for block event")
                | .ok tx =>
                  match transactionActions.toFilteredActions P tx.Actions with
                  | .err e => .abort e
                  | .fault p => .fault p
                  | .ret data =>
                    .emit chdr.ChannelId
                      { Txid := chdr.TxId, Type_ := chdr.Type_
                        TxValidationCode := code, Data := some data }
              else
                .emit chdr.ChannelId
                  { Txid := chdr.TxId, Type_ := chdr.Type_
                    TxValidationCode := code, Data := none }

/-- The loop of `toFilteredBlock` (line 132) over the slots from index
`txIndex` on; the last argument is the local `filteredBlock`. -/
def blockEvent.toFilteredBlock.loop (P : Imports) (txsFltr : Bytes) :
    Nat → List (Option Bytes) → FilteredBlock → Outcome FilteredBlock
  | _, [], filteredBlock => .ret filteredBlock
  | txIndex, ebytes :: rest, filteredBlock =>
    match blockEvent.toFilteredBlock.body P txsFltr txIndex ebytes with
    | .skip => loop P txsFltr (txIndex + 1) rest filteredBlock
    | .emit channelId ft =>
      loop P txsFltr (txIndex + 1) rest
        { filteredBlock with
          ChannelId := channelId
          FilteredTransactions := filteredBlock.FilteredTransactions ++ [ft] }
    | .abort e => .err e
    | .fault p => .fault p

/-- The method `blockEvent.toFilteredBlock` (lines 126-187). -/
def blockEvent.toFilteredBlock (P : Imports) (block : blockEvent) : Outcome FilteredBlock :=
  match block.Header with
  | none => .fault .nilDereference
  | some header =>
    match block.Metadata with
    | none => .fault .nilDereference
    | some metadata =>
      match metadata.Metadata[P.BlockMetadataIndex_TRANSACTIONS_FILTER]? with
      | none => .fault .indexOutOfRange
      | some txsFltr =>
        match block.Data with
        | none => .fault .nilDereference
        | some data =>
          blockEvent.toFilteredBlock.loop P txsFltr 0 data.Data
            { ChannelId := "", Number := header.Number, FilteredTransactions := [] }

/-! ## Response senders -/

/-- Message `peer.DeliverResponse` with its oneof field `Type`. -/
inductive DeliverResponse where
  | Status (status : Int)
  | Block (block : Option blockEvent)
  | FilteredBlock (filteredBlock : FilteredBlock)
  deriving DecidableEq, Repr

/-- The outbound side of a gRPC stream (`peer.Deliver_DeliverServer` and
`peer.Deliver_DeliverFilteredServer`): `sent` records the messages handed to
`Send` so far, and `sendResult` is the transport, giving the error that `Send`
returns for a message after a given history. -/
structure Stream where
  sent : List DeliverResponse
  sendResult : List DeliverResponse → DeliverResponse → Option GoError

/-- The method `Send` of a stream. -/
def Stream.Send (srv : Stream) (m : DeliverResponse) : Stream × Option GoError :=
  ({ srv with sent := srv.sent ++ [m] }, srv.sendResult srv.sent m)

/-- An `error` result seen as an `Outcome`. -/
def Outcome.ofError : Option GoError → Outcome Unit
  | none => .ret ()
  | some e => .err e

/-- The type `blockResponseSender` (line 35). -/
structure blockResponseSender where
  Deliver_DeliverServer : Stream

/-- The method `blockResponseSender.SendStatusResponse` (lines 40-45). -/
def blockResponseSender.SendStatusResponse (brs : blockResponseSender) (status : Int) :
    blockResponseSender × Option GoError :=
  let r := brs.Deliver_DeliverServer.Send (.Status status)
  ({ Deliver_DeliverServer := r.1 }, r.2)

/-- The method `blockResponseSender.SendBlockResponse` (lines 48-53). -/
def blockResponseSender.SendBlockResponse (brs : blockResponseSender)
    (block : Option blockEvent) : blockResponseSender × Option GoError :=
  let r := brs.Deliver_DeliverServer.Send (.Block block)
  ({ Deliver_DeliverServer := r.1 }, r.2)

/-- The type `filteredBlockResponseSender` (line 56). -/
structure filteredBlockResponseSender where
  Deliver_DeliverFilteredServer : Stream

/-- The method `filteredBlockResponseSender.SendStatusResponse` (lines 61-66). -/
def filteredBlockResponseSender.SendStatusResponse (fbrs : filteredBlockResponseSender)
    (status : Int) : filteredBlockResponseSender × Option GoError :=
  let r := fbrs.Deliver_DeliverFilteredServer.Send (.Status status)
  ({ Deliver_DeliverFilteredServer := r.1 }, r.2)

/-- The method `filteredBlockResponseSender.IsFiltered` (lines 70-72). -/
def filteredBlockResponseSender.IsFiltered (_fbrs : filteredBlockResponseSender) : Bool :=
  true

/-- The method `filteredBlockResponseSender.SendBlockResponse` (lines 75-87); `block` is
the pointer argument, dereferenced on line 77. -/
def filteredBlockResponseSender.SendBlockResponse (P : Imports)
    (fbrs : filteredBlockResponseSender) (block : Option blockEvent) :
    filteredBlockResponseSender × Outcome Unit :=
  match block with
  | none => (fbrs, .fault .nilDereference)
  | some b =>
    match blockEvent.toFilteredBlock P b with
    | .fault p => (fbrs, .fault p)
    | .err _ =>
      let r := fbrs.SendStatusResponse P.Status_BAD_REQUEST
      (r.1, Outcome.ofError r.2)
    | .ret filteredBlock =>
      let r := fbrs.Deliver_DeliverFilteredServer.Send (.FilteredBlock filteredBlock)
      ({ Deliver_DeliverFilteredServer := r.1 }, Outcome.ofError r.2)

/-! ## `DeliverServer` and its panic boundary -/

/-- Go's builtin `recover`, on the panic in flight (if any). `depth` counts the
calls between the deferred function and the call of `recover`: the call is
made directly by the deferred function exactly when `depth = 0`, and only
then does it return the panic value and stop the panic; otherwise it returns
nil and the panic stays in flight. The result is the value returned and the
panic in flight afterwards. -/
def recover (depth : Nat) (panicking : Option Fault) : Option Fault × Option Fault :=
  if depth = 0 then (panicking, none) else (none, panicking)

/-- The function literal called by `dumpStacktraceOnPanic` (lines 233-238),
running `depth` calls below the deferred function. The result is the lines
it logs and the panic left in flight by `recover`. -/
def dumpStacktraceOnPanic.func1 (depth : Nat) (panicking : Option Fault) :
    List String × Option Fault :=
  let r := recover depth panicking
  ((match r.1 with
    | some _ => ["Deliver client triggered panic"]
    | none => []) ++ ["Closing Deliver stream"], r.2)

/-- The function `dumpStacktraceOnPanic` (lines 232-239), running `depth`
calls below the deferred function: it calls the function literal, one call
deeper. -/
def dumpStacktraceOnPanic (depth : Nat) (panicking : Option Fault) :
    List String × Option Fault :=
  dumpStacktraceOnPanic.func1 (depth + 1) panicking

/-- The statement `defer dumpStacktraceOnPanic()` around a function body whose
result is `body`: the deferred function is run (at depth 0) with the panic the
body raised, if any. A panic still in flight afterwards propagates to the
caller; a recovered one makes the function return its result variables, here
the nil error. The result is the lines logged and the outcome of the call. -/
def deferDumpStacktraceOnPanic (body : Outcome Unit) : List String × Outcome Unit :=
  match body with
  | .fault p =>
    let d := dumpStacktraceOnPanic 0 (some p)
    (d.1, match d.2 with
      | some q => .fault q
      | none => .ret ())
  | r =>
    let d := dumpStacktraceOnPanic 0 none
    (d.1, match d.2 with
      | some q => .fault q
      | none => r)

/-- The type `deliver.PolicyCheckerFunc`. -/
abbrev PolicyCheckerFunc := Envelope → String → Option GoError

/-- The response sender handed to the generic handler. -/
inductive ResponseSender where
  | block (brs : blockResponseSender)
  | filtered (fbrs : filteredBlockResponseSender)

/-- The type `deliver.Server`, the triple handed to the generic handler. -/
structure deliver.Server where
  Receiver : Stream
  PolicyChecker : PolicyCheckerFunc
  ResponseSender : ResponseSender

/-- The type `DeliverServer` (lines 29-32). `DeliverHandler` stands for the
method `deliver.Handler.Handle` of the external generic handler, which returns
an error, returns nil, or raises a runtime fault. The methods `Deliver` and
`DeliverFiltered` below return the lines they log and their outcome. -/
structure DeliverServer where
  DeliverHandler : deliver.Server → Outcome Unit
  PolicyCheckerProvider : String → PolicyCheckerFunc

/-- The method `DeliverServer.DeliverFiltered` (lines 97-109). -/
def DeliverServer.DeliverFiltered (P : Imports) (s : DeliverServer) (srv : Stream) :
    List String × Outcome Unit :=
  let r := deferDumpStacktraceOnPanic
    (s.DeliverHandler
      { Receiver := srv
        PolicyChecker := s.PolicyCheckerProvider P.Event_FilteredBlock
        ResponseSender := .filtered { Deliver_DeliverFilteredServer := srv } })
  ("Starting new DeliverFiltered handler" :: r.1, r.2)

/-- The method `DeliverServer.Deliver` (lines 112-124). -/
def DeliverServer.Deliver (P : Imports) (s : DeliverServer) (srv : Stream) :
    List String × Outcome Unit :=
  let r := deferDumpStacktraceOnPanic
    (s.DeliverHandler
      { PolicyChecker := s.PolicyCheckerProvider P.Event_Block
        Receiver := srv
        ResponseSender := .block { Deliver_DeliverServer := srv } })
  ("Starting new Deliver handler" :: r.1, r.2)

/-! ## Connection producer and endpoint criteria (`core/comm`) -/

/-- A live connection (`*grpc.ClientConn`). -/
structure ClientConn where
  handle : Nat
  deriving DecidableEq, Repr

/-- Modelled from the spec: the state of the connection producer of
`core/comm`, whose source is not among the files (only its test
`producer_test.go` is): the working set of endpoints, the dial function
`(endpointAddress, timeout) -> (connection, error)` and the per-attempt
timeout. -/
structure ConnectionProducer where
  endpoints : List String
  connect : String → Nat → Except GoError ClientConn
  connectionTimeout : Nat

/-- Modelled from the spec: the random permutation of the working set that
`NewConnection` produces on each call, the producer's source being absent.
`draws` is the random source; each endpoint is inserted at a drawn position
among those already placed. -/
def ConnectionProducer.shuffle : List Nat → List String → List String
  | _, [] => []
  | [], e :: es => e :: shuffle [] es
  | r :: rs, e :: es =>
    let placed := shuffle rs es
    placed.insertIdx (r % (placed.length + 1)) e

/-- Modelled from the spec: the dial attempts of `NewConnection`, in the given
order; the first successful connection and its endpoint are returned, and when
every attempt fails no connection and an error are. -/
def ConnectionProducer.NewConnection.dialAll (cp : ConnectionProducer) :
    List String → Option ClientConn × String × Option GoError
  | [] => (none, "", some (.leaf "could not connect to any of the endpoints"))
  | endpoint :: rest =>
    match cp.connect endpoint cp.connectionTimeout with
    | .ok conn => (some conn, endpoint, none)
    | .error _ => dialAll cp rest

/-- Modelled from the spec: `ConnectionProducer.NewConnection` of `core/comm`
(section 4.1), its source being absent: permute the working set, then dial
each endpoint in that order. The result is `(connection, endpoint, error)`. -/
def ConnectionProducer.NewConnection (cp : ConnectionProducer) (draws : List Nat) :
    Option ClientConn × String × Option GoError :=
  ConnectionProducer.NewConnection.dialAll cp (ConnectionProducer.shuffle draws cp.endpoints)

/-- Modelled from the spec: the value type `EndpointCriteria` of `core/comm`,
whose source is absent. -/
structure EndpointCriteria where
  Endpoint : String
  Organizations : List String
  deriving DecidableEq, Repr

/-- Modelled from the spec: `EndpointCriteria.Equals` (section 4.2), its source
being absent: the endpoints are equal and the organizations are equal as sets,
"same size, same membership", duplicates collapsing. -/
def EndpointCriteria.Equals (ec other : EndpointCriteria) : Bool :=
  ec.Endpoint == other.Endpoint &&
    (ec.Organizations.dedup.length == other.Organizations.dedup.length &&
      ec.Organizations.all (fun o => other.Organizations.contains o))

/-! ## Reading a slot and an action

The notions used to state what the filter keeps: the channel header a
transaction slot decodes to, and the chaincode event a transaction action
decodes to. -/

/-- The channel header of a transaction slot: the slot's payload is present,
parses into an envelope and a payload with a non-nil header, and the channel
header unmarshals. -/
def slotChannelHeader (P : Imports) (ebytes : Option Bytes) : Option ChannelHeader :=
  match ebytes with
  | none => none
  | some raw =>
    match P.GetEnvelopeFromBlock raw with
    | .error _ => none
    | .ok env =>
      match P.GetPayload env with
      | .error _ => none
      | .ok payload =>
        match payload.Header with
        | none => none
        | some hdr =>
          match P.UnmarshalChannelHeader hdr.ChannelHeader with
          | .error _ => none
          | .ok chdr => some chdr

/-- The chaincode event of a transaction action: the action payload unmarshals
and has a non-nil `Action`, whose proposal response payload, chaincode action
and chaincode event unmarshal in turn. -/
def actionEvent (P : Imports) (action : Option TransactionAction) : Option ChaincodeEvent :=
  match action with
  | none => none
  | some a =>
    match P.GetChaincodeActionPayload a.Payload with
    | .error _ => none
    | .ok chaincodeActionPayload =>
      match chaincodeActionPayload.Action with
      | none => none
      | some endorsed =>
        match P.GetProposalResponsePayload endorsed.ProposalResponsePayload with
        | .error _ => none
        | .ok propRespPayload =>
          match P.GetChaincodeAction propRespPayload.Extension with
          | .error _ => none
          | .ok caPayload =>
            match P.GetChaincodeEvents caPayload.Events with
            | .error _ => none
            | .ok ccEvent => some ccEvent

/-- The filtered chaincode action emitted for an event: its three identifying
fields and no payload. -/
def filteredActionOf (ccEvent : ChaincodeEvent) : FilteredChaincodeAction :=
  { ChaincodeEvent :=
      { TxId := ccEvent.TxId
        ChaincodeId := ccEvent.ChaincodeId
        EventName := ccEvent.EventName
        Payload := [] } }

/-- The slot neither returns an error nor faults: the loop goes on to the next
slot. -/
def SlotResult.continues : SlotResult → Bool
  | .skip => true
  | .emit _ _ => true
  | .abort _ => false
  | .fault _ => false

/-- The channel header of the slot fails to unmarshal. -/
def channelHeaderFails (P : Imports) (hdr : Header) : Prop :=
  ∃ e, P.UnmarshalChannelHeader hdr.ChannelHeader = .error e

/-- The slot is an endorsing transaction whose transaction or whose actions
fail to decode. -/
def endorsingDecodingFails (P : Imports) (payload : Payload) (hdr : Header) : Prop :=
  ∃ chdr, P.UnmarshalChannelHeader hdr.ChannelHeader = .ok chdr ∧
    chdr.Type_ = P.HeaderType_ENDORSER_TRANSACTION ∧
    ((∃ e, P.GetTransaction payload.Data = .error e) ∨
      ∃ tx e, P.GetTransaction payload.Data = .ok tx ∧
        transactionActions.toFilteredActions P tx.Actions = .err e)

/-- A structural failure of a slot, as the specification lists them: the
payload is present and parses into an envelope and a payload with a header,
and the channel header fails to unmarshal or the endorsing transaction fails
to decode. -/
def structuralFailure (P : Imports) (ebytes : Option Bytes) : Prop :=
  ∃ raw env payload hdr, ebytes = some raw ∧ P.GetEnvelopeFromBlock raw = .ok env ∧
    P.GetPayload env = .ok payload ∧ payload.Header = some hdr ∧
    (channelHeaderFails P hdr ∨ endorsingDecodingFails P payload hdr)

/-- The payload of the slot is present and parses into an envelope whose own
payload does not parse. -/
def envelopePayloadFails (P : Imports) (ebytes : Option Bytes) : Prop :=
  ∃ raw env e, ebytes = some raw ∧ P.GetEnvelopeFromBlock raw = .ok env ∧
    P.GetPayload env = .error e

/-- A failure of a slot that the filter tolerates: the payload is present and
does not parse into an envelope, or parses into an envelope and a payload
whose header is nil. -/
def toleratedFailure (P : Imports) (ebytes : Option Bytes) : Prop :=
  ∃ raw, ebytes = some raw ∧
    ((∃ e, P.GetEnvelopeFromBlock raw = .error e) ∨
      ∃ env payload, P.GetEnvelopeFromBlock raw = .ok env ∧
        P.GetPayload env = .ok payload ∧ payload.Header = none)

/-! ## A sample instance of the imports

A small decoder table, used to run the definitions on concrete blocks. The
first byte of an input selects the message it decodes to. -/

/-- Sample channel identifiers. -/
def sampleChannel : Nat → String
  | 0 => ""
  | 1 => "ch1"
  | 2 => "ch2"
  | _ => "ch"

/-- Sample transaction identifiers. -/
def sampleTxId : Nat → String
  | 0 => "tx0"
  | 1 => "tx1"
  | 2 => "tx2"
  | 3 => "tx3"
  | 4 => "tx4"
  | _ => "tx"

/-- Sample decoders and constants. -/
def sampleImports : Imports where
  GetEnvelopeFromBlock
    | 0 :: rest => .ok { Payload := rest, Signature := [] }
    | _ => .error (.leaf "error unmarshaling Envelope")
  GetPayload env :=
    match env.Payload with
    | 0 :: data => .ok { Header := none, Data := data }
    | 1 :: t :: c :: x :: data =>
      .ok { Header := some { ChannelHeader := [t, c, x], SignatureHeader := [] }, Data := data }
    | 2 :: data =>
      .ok { Header := some { ChannelHeader := [], SignatureHeader := [] }, Data := data }
    | _ => .error (.leaf "error unmarshaling Payload")
  UnmarshalChannelHeader
    | [t, c, x] => .ok { Type_ := t, ChannelId := sampleChannel c, TxId := sampleTxId x }
    | _ => .error (.leaf "error unmarshaling ChannelHeader")
  GetTransaction
    | [9] => .error (.leaf "error unmarshaling Transaction")
    | data => .ok { Actions := data.map fun b => some { Header := [], Payload := [b] } }
  GetChaincodeActionPayload
    | [0] => .ok { ChaincodeProposalPayload := [], Action := none }
    | [b] => .ok { ChaincodeProposalPayload := []
                   Action := some { ProposalResponsePayload := [b] } }
    | _ => .error (.leaf "error unmarshaling ChaincodeActionPayload")
  GetProposalResponsePayload bytes := .ok { ProposalHash := [], Extension := bytes }
  GetChaincodeAction bytes := .ok { Results := [], Events := bytes }
  GetChaincodeEvents
    | [1] => .ok { ChaincodeId := "", TxId := "tx1", EventName := "ev1", Payload := [7] }
    | [2] => .ok { ChaincodeId := "cc2", TxId := "tx2", EventName := "ev2", Payload := [7] }
    | [3] => .ok { ChaincodeId := "cc3", TxId := "tx3", EventName := "ev3", Payload := [8] }
    | _ => .error (.leaf "error unmarshaling ChaincodeEvent")
  HeaderType_ENDORSER_TRANSACTION := 3
  BlockMetadataIndex_TRANSACTIONS_FILTER := 2
  Status_BAD_REQUEST := 400
  Event_Block := "event/Block"
  Event_FilteredBlock := "event/FilteredBlock"

/-- A sample block with the given number, transaction slots and transactions
filter. -/
def sampleBlock (number : Nat) (slots : List (Option Bytes)) (txsFltr : Bytes) : blockEvent :=
  { Header := some { Number := number, PreviousHash := [], DataHash := [] }
    Data := some { Data := slots }
    Metadata := some { Metadata := [[], [], txsFltr] } }

/-- Five sample slots, the third of which is absent; the fourth is an
endorsing transaction with four actions. -/
def sampleSlots : List (Option Bytes) :=
  [some [0, 1, 5, 1, 0], some [0, 1, 5, 1, 1], none, some [0, 1, 3, 2, 3, 2, 0, 1, 3],
    some [0, 1, 5, 1, 4]]

/-- The filtered block of `sampleSlots` in block 7 under the transactions
filter `[10, 11, 12, 13, 14]`. -/
def sampleFiltered : FilteredBlock :=
  { ChannelId := "ch1"
    Number := 7
    FilteredTransactions :=
      [{ Txid := "tx0", Type_ := 5, TxValidationCode := 10, Data := none },
       { Txid := "tx1", Type_ := 5, TxValidationCode := 11, Data := none },
       { Txid := "tx3", Type_ := 3, TxValidationCode := 13
         Data := some { TransactionActions := { ChaincodeActions :=
          [{ ChaincodeEvent :=
              { ChaincodeId := "cc2", TxId := "tx2", EventName := "ev2", Payload := [] } },
           { ChaincodeEvent :=
              { ChaincodeId := "cc3", TxId := "tx3", EventName := "ev3", Payload := [] } }] } } },
       { Txid := "tx4", Type_ := 5, TxValidationCode := 14, Data := none }] }


/-- Four sample transaction actions: an event of chaincode `cc2`, a nil
`Action`, an event with an empty chaincode id, an event of chaincode `cc3`. -/
def sampleActions : transactionActions :=
  [some { Header := [], Payload := [2] }, some { Header := [], Payload := [0] },
    some { Header := [], Payload := [1] }, some { Header := [], Payload := [3] }]

/-- A sample stream on which nothing has been sent and whose transport never
fails. -/
def sampleStream : Stream :=
  { sent := [], sendResult := fun _ _ => none }

/-- A sample deliver server whose generic handler raises a runtime fault. -/
def panickingServer : DeliverServer :=
  { DeliverHandler := fun _ => .fault (.raised "handler panic")
    PolicyCheckerProvider := fun _ _ _ => none }

/-- A sample producer over the endpoints `a`, `b`, `c`, dialing `a` fails. -/
def sampleProducer : ConnectionProducer :=
  { endpoints := ["a", "b", "c"]
    connect := fun endpoint _ =>
      if endpoint = "a" then .error (.leaf "Failed connecting to a")
      else if endpoint = "b" then .ok { handle := 2 } else .ok { handle := 3 }
    connectionTimeout := 3 }

/-- A sample producer over the endpoints `a`, `b`, `c`, every dial fails. -/
def failingProducer : ConnectionProducer :=
  { endpoints := ["a", "b", "c"]
    connect := fun _ _ => .error (.leaf "Failed connecting")
    connectionTimeout := 3 }


/-- The original indices, counted from `txIndex`, of the slots whose channel
header decodes. -/
def survivingIndices (P : Imports) : Nat → List (Option Bytes) → List Nat
  | _, [] => []
  | txIndex, ebytes :: rest =>
    if (slotChannelHeader P ebytes).isSome then txIndex :: survivingIndices P (txIndex + 1) rest
    else survivingIndices P (txIndex + 1) rest

/-! ## The loop body, slot by slot -/

/-- A slot that emits a transaction has a channel header, from which the
channel id, the transaction id and the type are taken, and the validation
code is the flag at the slot's own index. -/
theorem body_emit_inv {P : Imports} {txsFltr : Bytes} {txIndex : Nat} {ebytes : Option Bytes}
    {channelId : String} {ft : FilteredTransaction}
    (h : blockEvent.toFilteredBlock.body P txsFltr txIndex ebytes = .emit channelId ft) :
    ∃ chdr, slotChannelHeader P ebytes = some chdr ∧ channelId = chdr.ChannelId ∧
      ft.Txid = chdr.TxId ∧ ft.Type_ = chdr.Type_ ∧
      TxValidationFlags.Flag txsFltr txIndex = some ft.TxValidationCode := by
  unfold blockEvent.toFilteredBlock.body at h
  unfold slotChannelHeader
  split at h <;> try contradiction
  split at h <;> try contradiction
  split at h <;> try contradiction
  split at h <;> try contradiction
  split at h <;> try contradiction
  split at h <;> try contradiction
  rename_i chdr _ _ code hF
  refine ⟨chdr, rfl, ?_⟩
  rw [hF]
  split at h
  · split at h <;> try contradiction
    split at h <;> try contradiction
    simp only [SlotResult.emit.injEq] at h
    obtain ⟨h1, h2⟩ := h
    subst h2
    exact ⟨h1.symm, rfl, rfl, rfl⟩
  · simp only [SlotResult.emit.injEq] at h
    obtain ⟨h1, h2⟩ := h
    subst h2
    exact ⟨h1.symm, rfl, rfl, rfl⟩

/-- A slot that is skipped has no channel header: its payload is absent, or it
is a tolerated failure. -/
theorem body_skip_inv {P : Imports} {txsFltr : Bytes} {txIndex : Nat} {ebytes : Option Bytes}
    (h : blockEvent.toFilteredBlock.body P txsFltr txIndex ebytes = .skip) :
    slotChannelHeader P ebytes = none ∧ (ebytes = none ∨ toleratedFailure P ebytes) := by
  unfold blockEvent.toFilteredBlock.body at h
  unfold slotChannelHeader toleratedFailure
  split at h
  · exact ⟨rfl, Or.inl rfl⟩
  · rename_i raw
    split at h
    · rename_i e hE
      exact ⟨rfl, Or.inr ⟨raw, rfl, Or.inl ⟨_, hE⟩⟩⟩
    · rename_i env hE
      split at h <;> try contradiction
      rename_i payload hP
      split at h
      · rename_i hH
        exact ⟨rfl, Or.inr ⟨raw, rfl, Or.inr ⟨env, payload, hE, hP, hH⟩⟩⟩
      · split at h <;> try contradiction
        split at h <;> try contradiction
        split at h
        · split at h <;> try contradiction
          split at h <;> contradiction
        · contradiction

/-- A slot whose payload is absent, or that is a tolerated failure, is
skipped, whatever its index and the transactions filter. -/
theorem body_skip_of_tolerated (P : Imports) (txsFltr : Bytes) (txIndex : Nat)
    (ebytes : Option Bytes) (h : ebytes = none ∨ toleratedFailure P ebytes) :
    blockEvent.toFilteredBlock.body P txsFltr txIndex ebytes = .skip := by
  unfold blockEvent.toFilteredBlock.body
  rcases h with h | ⟨raw, h, hE | ⟨env, payload, hE, hP, hH⟩⟩
  · subst h; rfl
  · obtain ⟨e, hE⟩ := hE
    subst h
    simp only [hE]
  · subst h
    simp only [hE, hP, hH]

/-- A slot that makes the filter return an error has a payload that parses
into an envelope, and either the payload of the envelope does not parse or
the slot is a structural failure. -/
theorem body_abort_inv {P : Imports} {txsFltr : Bytes} {txIndex : Nat} {ebytes : Option Bytes}
    {e : GoError} (h : blockEvent.toFilteredBlock.body P txsFltr txIndex ebytes = .abort e) :
    envelopePayloadFails P ebytes ∨ structuralFailure P ebytes := by
  unfold blockEvent.toFilteredBlock.body at h
  unfold envelopePayloadFails structuralFailure
  split at h <;> try contradiction
  rename_i raw
  split at h <;> try contradiction
  rename_i env hE
  split at h
  · rename_i e1 hP
    exact Or.inl ⟨raw, env, e1, rfl, hE, hP⟩
  · rename_i payload hP
    split at h <;> try contradiction
    rename_i hdr hH
    refine Or.inr ⟨raw, env, payload, hdr, rfl, hE, hP, hH, ?_⟩
    split at h
    · rename_i e2 hC
      exact Or.inl ⟨e2, hC⟩
    · rename_i chdr hC
      refine Or.inr ⟨chdr, hC, ?_⟩
      split at h <;> try contradiction
      split at h <;> try contradiction
      rename_i hT
      refine ⟨hT, ?_⟩
      split at h
      · rename_i e3 hG
        exact Or.inl ⟨e3, hG⟩
      · rename_i tx hG
        split at h <;> try contradiction
        rename_i e4 hA
        exact Or.inr ⟨tx, e4, hG, hA⟩

/-- A slot with a present payload that parses into an envelope and a payload
with a header, whose channel header fails to unmarshal with `e`, makes the
filter return `e`. -/
theorem body_abort_of_channelHeader (P : Imports) (txsFltr : Bytes) (txIndex : Nat)
    {raw : Bytes} {env : Envelope} {payload : Payload} {hdr : Header} {e : GoError}
    (hE : P.GetEnvelopeFromBlock raw = .ok env) (hP : P.GetPayload env = .ok payload)
    (hH : payload.Header = some hdr)
    (hC : P.UnmarshalChannelHeader hdr.ChannelHeader = .error e) :
    blockEvent.toFilteredBlock.body P txsFltr txIndex (some raw) = .abort e := by
  unfold blockEvent.toFilteredBlock.body
  simp only [hE, hP, hH, hC]

/-! ## The loop -/

/-- The loop on no slot. -/
theorem loop_nil (P : Imports) (txsFltr : Bytes) (txIndex : Nat) (fb : FilteredBlock) :
    blockEvent.toFilteredBlock.loop P txsFltr txIndex [] fb = .ret fb := rfl

/-- One iteration of the loop. -/
theorem loop_cons (P : Imports) (txsFltr : Bytes) (txIndex : Nat) (ebytes : Option Bytes)
    (rest : List (Option Bytes)) (fb : FilteredBlock) :
    blockEvent.toFilteredBlock.loop P txsFltr txIndex (ebytes :: rest) fb =
      match blockEvent.toFilteredBlock.body P txsFltr txIndex ebytes with
      | .skip => blockEvent.toFilteredBlock.loop P txsFltr (txIndex + 1) rest fb
      | .emit channelId ft =>
        blockEvent.toFilteredBlock.loop P txsFltr (txIndex + 1) rest
          { fb with
            ChannelId := channelId
            FilteredTransactions := fb.FilteredTransactions ++ [ft] }
      | .abort e => .err e
      | .fault p => .fault p := rfl

/-- When the loop returns an error, some slot made it do so. -/
theorem loop_err_inv {P : Imports} {txsFltr : Bytes} {e : GoError} :
    ∀ (slots : List (Option Bytes)) (txIndex : Nat) (fb : FilteredBlock),
      blockEvent.toFilteredBlock.loop P txsFltr txIndex slots fb = .err e →
      ∃ ebytes ∈ slots, ∃ k, blockEvent.toFilteredBlock.body P txsFltr k ebytes = .abort e := by
  intro slots
  induction slots with
  | nil => intro txIndex fb h; simp [blockEvent.toFilteredBlock.loop] at h
  | cons s rest ih =>
    intro txIndex fb h
    rw [loop_cons] at h
    split at h
    · obtain ⟨x, hx, k, hk⟩ := ih _ _ h
      exact ⟨x, List.mem_cons_of_mem _ hx, k, hk⟩
    · obtain ⟨x, hx, k, hk⟩ := ih _ _ h
      exact ⟨x, List.mem_cons_of_mem _ hx, k, hk⟩
    · rename_i e1 hb
      simp only [Outcome.err.injEq] at h
      subst h
      exact ⟨s, List.mem_cons_self _ _, txIndex, hb⟩
    · contradiction

/-- The loop runs through a stretch of slots none of which returns an error or
faults, and goes on with the slots after it. -/
theorem loop_append_continues (P : Imports) (txsFltr : Bytes) :
    ∀ (pre rest : List (Option Bytes)) (txIndex : Nat) (fb : FilteredBlock),
      (∀ k ebytes, pre[k]? = some ebytes →
        (blockEvent.toFilteredBlock.body P txsFltr (txIndex + k) ebytes).continues = true) →
      ∃ fb1, blockEvent.toFilteredBlock.loop P txsFltr txIndex (pre ++ rest) fb =
        blockEvent.toFilteredBlock.loop P txsFltr (txIndex + pre.length) rest fb1 := by
  intro pre
  induction pre with
  | nil => intro rest txIndex fb _; exact ⟨fb, rfl⟩
  | cons s pre ih =>
    intro rest txIndex fb h
    have h0 := h 0 s (by simp)
    have hrest : ∀ k ebytes, pre[k]? = some ebytes →
        (blockEvent.toFilteredBlock.body P txsFltr (txIndex + 1 + k) ebytes).continues = true := by
      intro k ebytes hk
      have := h (k + 1) ebytes (by simpa using hk)
      rwa [show txIndex + (k + 1) = txIndex + 1 + k by omega] at this
    simp only [List.cons_append, List.length_cons]
    rw [show txIndex + (pre.length + 1) = txIndex + 1 + pre.length by omega]
    rw [loop_cons]
    simp only [Nat.add_zero] at h0
    cases hb : blockEvent.toFilteredBlock.body P txsFltr txIndex s with
    | skip => exact ih rest (txIndex + 1) fb hrest
    | emit channelId ft => exact ih rest (txIndex + 1) _ hrest
    | abort e => rw [hb] at h0; simp [SlotResult.continues] at h0
    | fault p => rw [hb] at h0; simp [SlotResult.continues] at h0

/-- What a successful run of the loop has added to the filtered block: one
transaction per slot whose channel header decodes, in the order of the slots,
with the transaction id and type of that header and the flag at the slot's
original index; the channel id is that of the last such slot. -/
theorem loop_ret_spec {P : Imports} {txsFltr : Bytes} :
    ∀ (slots : List (Option Bytes)) (txIndex : Nat) (fb r : FilteredBlock),
      blockEvent.toFilteredBlock.loop P txsFltr txIndex slots fb = .ret r →
      r.Number = fb.Number ∧
      r.FilteredTransactions.map (fun t => (t.Txid, t.Type_)) =
        fb.FilteredTransactions.map (fun t => (t.Txid, t.Type_)) ++
          (slots.filterMap (slotChannelHeader P)).map (fun c => (c.TxId, c.Type_)) ∧
      r.FilteredTransactions.map (fun t => some t.TxValidationCode) =
        fb.FilteredTransactions.map (fun t => some t.TxValidationCode) ++
          (survivingIndices P txIndex slots).map (TxValidationFlags.Flag txsFltr) ∧
      r.ChannelId =
        (((slots.filterMap (slotChannelHeader P)).getLast?).map (·.ChannelId)).getD
          fb.ChannelId := by
  intro slots
  induction slots with
  | nil =>
    intro txIndex fb r h
    rw [loop_nil] at h
    simp only [Outcome.ret.injEq] at h
    subst h
    simp [survivingIndices]
  | cons s rest ih =>
    intro txIndex fb r h
    rw [loop_cons] at h
    cases hb : blockEvent.toFilteredBlock.body P txsFltr txIndex s with
    | skip =>
      rw [hb] at h
      have hs := (body_skip_inv hb).1
      have := ih _ _ _ h
      simpa [List.filterMap_cons, hs, survivingIndices] using this
    | emit channelId ft =>
      rw [hb] at h
      obtain ⟨chdr, hs, hc, h1, h2, h3⟩ := body_emit_inv hb
      obtain ⟨i1, i2, i3, i4⟩ := ih _ _ _ h
      refine ⟨i1, ?_, ?_, ?_⟩
      · simp [List.filterMap_cons, hs, i2, h1, h2]
      · simp [survivingIndices, hs, i3, h3]
      · rw [i4, List.filterMap_cons, hs]
        simp only [List.getLast?_cons]
        cases (List.filterMap (slotChannelHeader P) rest).getLast? <;> simp [hc]
    | abort e => rw [hb] at h; contradiction
    | fault p => rw [hb] at h; contradiction

/-! ## From the loop to `toFilteredBlock` -/

/-- When `toFilteredBlock` does not fault, the header, the transactions filter
and the data of the block are present and the result is that of the loop. -/
theorem toFilteredBlock_eq_loop {P : Imports} {block : blockEvent} {header : BlockHeader}
    {metadata : BlockMetadata} {txsFltr : Bytes} {data : BlockData}
    (hH : block.Header = some header) (hM : block.Metadata = some metadata)
    (hF : metadata.Metadata[P.BlockMetadataIndex_TRANSACTIONS_FILTER]? = some txsFltr)
    (hD : block.Data = some data) :
    blockEvent.toFilteredBlock P block =
      blockEvent.toFilteredBlock.loop P txsFltr 0 data.Data
        { ChannelId := "", Number := header.Number, FilteredTransactions := [] } := by
  unfold blockEvent.toFilteredBlock
  simp only [hH, hM, hF, hD]

/-- A run of `toFilteredBlock` that does not fault before the loop. -/
theorem toFilteredBlock_loop_inv (P : Imports) (block : blockEvent)
    (h : ∀ p, blockEvent.toFilteredBlock P block ≠ .fault p) :
    ∃ header metadata txsFltr data, block.Header = some header ∧
      block.Metadata = some metadata ∧
      metadata.Metadata[P.BlockMetadataIndex_TRANSACTIONS_FILTER]? = some txsFltr ∧
      block.Data = some data ∧
      blockEvent.toFilteredBlock P block =
        blockEvent.toFilteredBlock.loop P txsFltr 0 data.Data
          { ChannelId := "", Number := header.Number, FilteredTransactions := [] } := by
  cases hH : block.Header with
  | none => simp [blockEvent.toFilteredBlock, hH] at h
  | some header =>
    cases hM : block.Metadata with
    | none => simp [blockEvent.toFilteredBlock, hH, hM] at h
    | some metadata =>
      cases hF : metadata.Metadata[P.BlockMetadataIndex_TRANSACTIONS_FILTER]? with
      | none => simp [blockEvent.toFilteredBlock, hH, hM, hF] at h
      | some txsFltr =>
        cases hD : block.Data with
        | none => simp [blockEvent.toFilteredBlock, hH, hM, hF, hD] at h
        | some data =>
          exact ⟨header, metadata, txsFltr, data, rfl, rfl, hF, rfl,
            toFilteredBlock_eq_loop hH hM hF hD⟩

/-- A successful run of the loop over two stretches of slots is a successful
run over the first followed by a run over the second. -/
theorem loop_append_ret {P : Imports} {txsFltr : Bytes} :
    ∀ (pre rest : List (Option Bytes)) (txIndex : Nat) (fb r : FilteredBlock),
      blockEvent.toFilteredBlock.loop P txsFltr txIndex (pre ++ rest) fb = .ret r →
      ∃ mid, blockEvent.toFilteredBlock.loop P txsFltr txIndex pre fb = .ret mid ∧
        blockEvent.toFilteredBlock.loop P txsFltr (txIndex + pre.length) rest mid = .ret r := by
  intro pre
  induction pre with
  | nil => intro rest txIndex fb r h; exact ⟨fb, rfl, by simpa using h⟩
  | cons s pre ih =>
    intro rest txIndex fb r h
    simp only [List.cons_append, List.length_cons] at h ⊢
    rw [show txIndex + (pre.length + 1) = txIndex + 1 + pre.length by omega]
    rw [loop_cons] at h
    rw [loop_cons]
    cases hb : blockEvent.toFilteredBlock.body P txsFltr txIndex s with
    | skip => rw [hb] at h; exact ih rest _ _ _ h
    | emit channelId ft => rw [hb] at h; exact ih rest _ _ _ h
    | abort e => rw [hb] at h; contradiction
    | fault p => rw [hb] at h; contradiction

/-- A successful run of the loop only appends to the filtered transactions. -/
theorem loop_ret_prefix {P : Imports} {txsFltr : Bytes} :
    ∀ (slots : List (Option Bytes)) (txIndex : Nat) (fb r : FilteredBlock),
      blockEvent.toFilteredBlock.loop P txsFltr txIndex slots fb = .ret r →
      ∃ txs, r.FilteredTransactions = fb.FilteredTransactions ++ txs := by
  intro slots
  induction slots with
  | nil =>
    intro txIndex fb r h
    rw [loop_nil] at h
    simp only [Outcome.ret.injEq] at h
    subst h
    exact ⟨[], by simp⟩
  | cons s rest ih =>
    intro txIndex fb r h
    rw [loop_cons] at h
    cases hb : blockEvent.toFilteredBlock.body P txsFltr txIndex s with
    | skip => rw [hb] at h; exact ih _ _ _ h
    | emit channelId ft =>
      rw [hb] at h
      obtain ⟨txs, ht⟩ := ih _ _ _ h
      exact ⟨ft :: txs, by simp [ht]⟩
    | abort e => rw [hb] at h; contradiction
    | fault p => rw [hb] at h; contradiction

/-- In a successful run, the transaction of a slot whose channel header decodes
sits in the output at the number of such slots before it, and carries the
flag at the slot's original index. -/
theorem loop_ret_at {P : Imports} {txsFltr : Bytes} (pre : List (Option Bytes))
    (ebytes : Option Bytes) (post : List (Option Bytes)) (fb r : FilteredBlock)
    (chdr : ChannelHeader)
    (h : blockEvent.toFilteredBlock.loop P txsFltr 0 (pre ++ ebytes :: post) fb = .ret r)
    (hfb : fb.FilteredTransactions = [])
    (hs : slotChannelHeader P ebytes = some chdr) :
    ∃ t, r.FilteredTransactions[(pre.filterMap (slotChannelHeader P)).length]? = some t ∧
      t.Txid = chdr.TxId ∧ t.Type_ = chdr.Type_ ∧
      TxValidationFlags.Flag txsFltr pre.length = some t.TxValidationCode := by
  obtain ⟨mid, h1, h2⟩ := loop_append_ret pre (ebytes :: post) 0 fb r h
  have hlen : mid.FilteredTransactions.length = (pre.filterMap (slotChannelHeader P)).length := by
    have := congrArg List.length (loop_ret_spec pre 0 fb mid h1).2.1
    simpa [hfb] using this
  rw [loop_cons] at h2
  simp only [Nat.zero_add] at h2
  cases hb : blockEvent.toFilteredBlock.body P txsFltr pre.length ebytes with
  | skip => rw [(body_skip_inv hb).1] at hs; contradiction
  | emit channelId ft =>
    rw [hb] at h2
    obtain ⟨c, hc, _, e1, e2, e3⟩ := body_emit_inv hb
    rw [hs] at hc
    simp only [Option.some.injEq] at hc
    subst hc
    obtain ⟨txs, ht⟩ := loop_ret_prefix _ _ _ _ h2
    refine ⟨ft, ?_, e1, e2, e3⟩
    rw [ht, ← hlen]
    simp only [List.append_assoc, List.singleton_append]
    rw [List.getElem?_append_right (Nat.le_refl _)]
    simp
  | abort e => rw [hb] at h2; contradiction
  | fault p => rw [hb] at h2; contradiction

/-- Two lists with equal images correspond element by element. -/
theorem forall₂_of_map_eq {α β γ : Type} (f : α → γ) (g : β → γ) :
    ∀ (l₁ : List α) (l₂ : List β), l₁.map f = l₂.map g →
      List.Forall₂ (fun a b => f a = g b) l₁ l₂
  | [], [], _ => List.Forall₂.nil
  | [], _ :: _, h => by simp at h
  | _ :: _, [], h => by simp at h
  | a :: l₁, b :: l₂, h => by
    simp only [List.map_cons, List.cons.injEq] at h
    exact List.Forall₂.cons h.1 (forall₂_of_map_eq f g l₁ l₂ h.2)

/-- Composition of two element-by-element correspondences. -/
theorem forall₂_comp {α β γ : Type} {R : α → β → Prop} {S : β → γ → Prop} :
    ∀ {l₁ : List α} {l₂ : List β} {l₃ : List γ}, List.Forall₂ R l₁ l₂ → List.Forall₂ S l₂ l₃ →
      List.Forall₂ (fun a c => ∃ b, R a b ∧ S b c) l₁ l₃
  | _, _, _, List.Forall₂.nil, List.Forall₂.nil => List.Forall₂.nil
  | _, _, _, List.Forall₂.cons r rs, List.Forall₂.cons s ss =>
    List.Forall₂.cons ⟨_, r, s⟩ (forall₂_comp rs ss)

/-- When every present slot has a channel header, the channel headers of the
slots correspond one to one, in order, to the present slots. -/
theorem channelHeaders_of_present (P : Imports) :
    ∀ slots : List (Option Bytes),
      (∀ raw, some raw ∈ slots → (slotChannelHeader P (some raw)).isSome = true) →
      List.Forall₂ (fun c raw => slotChannelHeader P (some raw) = some c)
        (slots.filterMap (slotChannelHeader P)) (slots.filterMap id)
  | [], _ => by simp
  | none :: rest, h => by
    have ih := channelHeaders_of_present P rest
      (fun raw hr => h raw (List.mem_cons_of_mem _ hr))
    have hn : slotChannelHeader P none = none := rfl
    simpa [List.filterMap_cons, hn] using ih
  | some raw :: rest, h => by
    have ih := channelHeaders_of_present P rest
      (fun raw hr => h raw (List.mem_cons_of_mem _ hr))
    have h0 := h raw (List.mem_cons_self _ _)
    obtain ⟨c, hc⟩ := Option.isSome_iff_exists.mp h0
    simpa [List.filterMap_cons, hc] using ih

/-! ## Errors of the filter -/

/-- Claim C1 as stated fails. A block whose only slot parses into an envelope
whose payload does not parse makes `toFilteredBlock` return an error, although
no slot of the block is a structural failure: the unparsable envelope payload
aborts the filter (lines 148-151) instead of being skipped. -/
theorem toFilteredBlock_error_on_unparsable_payload :
    blockEvent.toFilteredBlock sampleImports (sampleBlock 7 [some [0, 3]] [0]) =
        .err (.WithMessage (.leaf "error unmarshaling Payload")
          "could not extract payload from envelope") ∧
      envelopePayloadFails sampleImports (some [0, 3]) ∧
      ¬ ∃ ebytes ∈ [some [0, 3]], structuralFailure sampleImports ebytes := by
  refine ⟨rfl, ⟨[0, 3], _, _, rfl, rfl, rfl⟩, ?_⟩
  rintro ⟨ebytes, hmem, raw, env, payload, hdr, h1, h2, h3, -⟩
  simp only [List.mem_singleton] at hmem
  subst hmem
  simp only [Option.some.injEq] at h1
  subst h1
  have henv : env = { Payload := [3], Signature := [] } := by
    have : sampleImports.GetEnvelopeFromBlock [0, 3] =
        .ok { Payload := [3], Signature := [] } := rfl
    rw [this] at h2
    simpa using h2.symm
  subst henv
  have : sampleImports.GetPayload { Payload := [3], Signature := [] } =
      .error (.leaf "error unmarshaling Payload") := rfl
  rw [this] at h3
  contradiction

/-- Claim C1, amended. When `toFilteredBlock` returns an error, some slot of
the block has a present payload that parses into an envelope, and either the
payload of that envelope does not parse, or it parses with a header and the
slot is a structural failure (its channel header fails to unmarshal, or it is
an endorsing transaction whose transaction or actions fail to decode). A slot
whose payload is absent, does not parse into an envelope, or parses into a
payload without a header never does so: the iteration is a `continue`. -/
theorem toFilteredBlock_error_inv (P : Imports) (block : blockEvent) :
    (∀ e, blockEvent.toFilteredBlock P block = .err e →
      ∃ data, block.Data = some data ∧
        ∃ ebytes ∈ data.Data, envelopePayloadFails P ebytes ∨ structuralFailure P ebytes) ∧
    (∀ txsFltr txIndex ebytes, (ebytes = none ∨ toleratedFailure P ebytes) →
      blockEvent.toFilteredBlock.body P txsFltr txIndex ebytes = .skip) := by
  refine ⟨?_, fun txsFltr txIndex ebytes h => body_skip_of_tolerated P txsFltr txIndex ebytes h⟩
  intro e h
  obtain ⟨header, metadata, txsFltr, data, -, -, -, hD, hloop⟩ :=
    toFilteredBlock_loop_inv P block (by rw [h]; intro p hp; contradiction)
  rw [hloop] at h
  obtain ⟨ebytes, hmem, k, hk⟩ := loop_err_inv _ _ _ h
  exact ⟨data, hD, ebytes, hmem, body_abort_inv hk⟩

/-- The amended claim C1 on sample blocks: a block that returns an error
because the channel header of its second slot is malformed, and a slot that
does not parse into an envelope and is skipped. -/
theorem toFilteredBlock_error_inv_witness :
    blockEvent.toFilteredBlock sampleImports
        (sampleBlock 7 [some [0, 1, 5, 1, 0], some [0, 2]] [10, 11]) =
      .err (.leaf "error unmarshaling ChannelHeader") ∧
    (∃ data, (sampleBlock 7 [some [0, 1, 5, 1, 0], some [0, 2]] [10, 11]).Data = some data ∧
      ∃ ebytes ∈ data.Data,
        envelopePayloadFails sampleImports ebytes ∨ structuralFailure sampleImports ebytes) ∧
    toleratedFailure sampleImports (some [5]) ∧
    blockEvent.toFilteredBlock.body sampleImports [10, 11] 1 (some [5]) = .skip :=
  have ht : toleratedFailure sampleImports (some [5]) := ⟨[5], rfl, Or.inl ⟨_, rfl⟩⟩
  ⟨rfl,
    (toFilteredBlock_error_inv sampleImports
      (sampleBlock 7 [some [0, 1, 5, 1, 0], some [0, 2]] [10, 11])).1 _ rfl,
    ht,
    (toFilteredBlock_error_inv sampleImports
      (sampleBlock 7 [some [0, 1, 5, 1, 0], some [0, 2]] [10, 11])).2 [10, 11] 1 (some [5])
      (Or.inr ht)⟩

/-- Claim C2 as stated fails. A block whose header is nil and whose only slot
has a present payload that parses into an envelope and a payload with a
header, the channel header of which fails to unmarshal, does not make
`toFilteredBlock` return an error: reading `block.Header.Number` (line 128)
faults before any slot is looked at. -/
theorem toFilteredBlock_faults_without_header :
    (∃ env payload hdr e, sampleImports.GetEnvelopeFromBlock [0, 2] = .ok env ∧
      sampleImports.GetPayload env = .ok payload ∧ payload.Header = some hdr ∧
      sampleImports.UnmarshalChannelHeader hdr.ChannelHeader = .error e) ∧
    blockEvent.toFilteredBlock sampleImports
        { Header := none
          Data := some { Data := [some [0, 2]] }
          Metadata := some { Metadata := [[], [], [10]] } } =
      .fault .nilDereference ∧
    ¬ ∃ e, blockEvent.toFilteredBlock sampleImports
        { Header := none
          Data := some { Data := [some [0, 2]] }
          Metadata := some { Metadata := [[], [], [10]] } } = .err e := by
  refine ⟨⟨_, _, _, _, rfl, rfl, rfl, rfl⟩, rfl, ?_⟩
  rintro ⟨e, he⟩
  have : blockEvent.toFilteredBlock sampleImports
        { Header := none
          Data := some { Data := [some [0, 2]] }
          Metadata := some { Metadata := [[], [], [10]] } } =
      .fault .nilDereference := rfl
  rw [this] at he
  contradiction

/-- Claim C2, amended. Take a block whose header, data and transactions filter
(the metadata entry at the transactions-filter index) are present. If a slot
has a present payload that parses into an envelope and a payload with a
non-nil header whose channel header fails to unmarshal with error `e`, and no
earlier slot returns an error or faults, then `toFilteredBlock` returns the
error `e` and no filtered block, whatever the other slots contain. -/
theorem toFilteredBlock_malformed_channel_header (P : Imports) (block : blockEvent)
    (header : BlockHeader) (metadata : BlockMetadata) (txsFltr : Bytes)
    (pre post : List (Option Bytes)) (raw : Bytes) (env : Envelope) (payload : Payload)
    (hdr : Header) (e : GoError)
    (hH : block.Header = some header) (hM : block.Metadata = some metadata)
    (hF : metadata.Metadata[P.BlockMetadataIndex_TRANSACTIONS_FILTER]? = some txsFltr)
    (hD : block.Data = some { Data := pre ++ some raw :: post })
    (hE : P.GetEnvelopeFromBlock raw = .ok env) (hP : P.GetPayload env = .ok payload)
    (hHdr : payload.Header = some hdr)
    (hC : P.UnmarshalChannelHeader hdr.ChannelHeader = .error e)
    (hpre : ∀ k ebytes, pre[k]? = some ebytes →
      (blockEvent.toFilteredBlock.body P txsFltr k ebytes).continues = true) :
    blockEvent.toFilteredBlock P block = .err e := by
  rw [toFilteredBlock_eq_loop hH hM hF hD]
  obtain ⟨fb1, h1⟩ := loop_append_continues P txsFltr pre (some raw :: post) 0
    { ChannelId := "", Number := header.Number, FilteredTransactions := [] }
    (by intro k ebytes hk; simpa using hpre k ebytes hk)
  rw [h1, loop_cons, body_abort_of_channelHeader P txsFltr _ hE hP hHdr hC]

/-- The amended claim C2 on a sample block: the third slot has a malformed
channel header, the first is well formed, the second is absent and the fourth
would fault. -/
theorem toFilteredBlock_malformed_channel_header_witness :
    sampleImports.GetEnvelopeFromBlock [0, 2] = .ok { Payload := [2], Signature := [] } ∧
    sampleImports.GetPayload { Payload := [2], Signature := [] } =
      .ok { Header := some { ChannelHeader := [], SignatureHeader := [] }, Data := [] } ∧
    sampleImports.UnmarshalChannelHeader [] = .error (.leaf "error unmarshaling ChannelHeader") ∧
    blockEvent.toFilteredBlock sampleImports
        (sampleBlock 7 [some [0, 1, 5, 1, 0], none, some [0, 2], some [0, 1, 5, 1, 1]] [10]) =
      .err (.leaf "error unmarshaling ChannelHeader") :=
  ⟨rfl, rfl, rfl,
    toFilteredBlock_malformed_channel_header sampleImports
      (sampleBlock 7 [some [0, 1, 5, 1, 0], none, some [0, 2], some [0, 1, 5, 1, 1]] [10])
      { Number := 7, PreviousHash := [], DataHash := [] } { Metadata := [[], [], [10]] } [10]
      [some [0, 1, 5, 1, 0], none] [some [0, 1, 5, 1, 1]] [0, 2]
      { Payload := [2], Signature := [] }
      { Header := some { ChannelHeader := [], SignatureHeader := [] }, Data := [] }
      { ChannelHeader := [], SignatureHeader := [] } (.leaf "error unmarshaling ChannelHeader")
      rfl rfl rfl rfl rfl rfl rfl rfl
      (by
        intro k ebytes hk
        match k, hk with
        | 0, hk => simp only [List.getElem?_cons_zero, Option.some.injEq] at hk; subst hk; rfl
        | 1, hk =>
          simp only [List.getElem?_cons_succ, List.getElem?_cons_zero, Option.some.injEq] at hk
          subst hk; rfl
        | k + 2, hk => simp at hk)⟩

/-! ## Order, validation codes and channel id of the filtered block -/

/-- Claim C3. When `toFilteredBlock` succeeds on a block all of whose present
slots are well formed (each has a channel header), there are as many filtered
transactions as slots with a present payload, and the k-th filtered
transaction has the transaction id and the type of the channel header of the
k-th present slot: absent slots leave no entry and the others keep their
order. -/
theorem toFilteredBlock_preserves_order (P : Imports) (block : blockEvent) (data : BlockData)
    (fb : FilteredBlock) (hD : block.Data = some data)
    (h : blockEvent.toFilteredBlock P block = .ret fb)
    (hwf : ∀ raw, some raw ∈ data.Data → (slotChannelHeader P (some raw)).isSome = true) :
    fb.FilteredTransactions.length = (data.Data.filterMap id).length ∧
      List.Forall₂
        (fun t raw => ∃ chdr, slotChannelHeader P (some raw) = some chdr ∧
          t.Txid = chdr.TxId ∧ t.Type_ = chdr.Type_)
        fb.FilteredTransactions (data.Data.filterMap id) := by
  obtain ⟨header, metadata, txsFltr, data1, -, -, -, hD1, hloop⟩ :=
    toFilteredBlock_loop_inv P block (by rw [h]; intro p hp; contradiction)
  rw [hD] at hD1
  simp only [Option.some.injEq] at hD1
  subst hD1
  rw [hloop] at h
  have hmap := (loop_ret_spec _ _ _ _ h).2.1
  simp only [List.map_nil, List.nil_append] at hmap
  have h1 := forall₂_of_map_eq _ _ _ _ hmap
  have h2 := channelHeaders_of_present P data.Data hwf
  have h3 : List.Forall₂
      (fun t raw => ∃ chdr, slotChannelHeader P (some raw) = some chdr ∧
        t.Txid = chdr.TxId ∧ t.Type_ = chdr.Type_)
      fb.FilteredTransactions (data.Data.filterMap id) := by
    refine List.Forall₂.imp ?_ (forall₂_comp h1 h2)
    rintro t raw ⟨c, hc, hs⟩
    simp only [Prod.mk.injEq] at hc
    exact ⟨c, hs, hc.1, hc.2⟩
  exact ⟨h3.length_eq, h3⟩

/-- Claim C3 on the sample block: five slots, the slot at index 2 absent, give
four filtered transactions, from the slots 0, 1, 3 and 4 in that order. -/
theorem toFilteredBlock_preserves_order_witness :
    blockEvent.toFilteredBlock sampleImports (sampleBlock 7 sampleSlots [10, 11, 12, 13, 14]) =
      .ret sampleFiltered ∧
    sampleSlots.length = 5 ∧ sampleSlots[2]? = some none ∧
    sampleFiltered.FilteredTransactions.map (·.Txid) = ["tx0", "tx1", "tx3", "tx4"] ∧
    sampleFiltered.FilteredTransactions.length = (sampleSlots.filterMap id).length ∧
    List.Forall₂
      (fun t raw => ∃ chdr, slotChannelHeader sampleImports (some raw) = some chdr ∧
        t.Txid = chdr.TxId ∧ t.Type_ = chdr.Type_)
      sampleFiltered.FilteredTransactions (sampleSlots.filterMap id) :=
  ⟨rfl, rfl, rfl, rfl,
    toFilteredBlock_preserves_order sampleImports
      (sampleBlock 7 sampleSlots [10, 11, 12, 13, 14]) { Data := sampleSlots } sampleFiltered
      rfl rfl
      (by
        intro raw hr
        simp only [sampleSlots, List.mem_cons, Option.some.injEq, List.mem_singleton,
          reduceCtorEq, false_or, List.not_mem_nil, or_false] at hr
        rcases hr with rfl | rfl | rfl | rfl <;> rfl)⟩

/-- Claim C4. When `toFilteredBlock` succeeds on a block, the filtered
transaction produced from a slot that survives filtering (the slot at the
original index `pre.length`, its position in the output being the number of
surviving slots before it) has as validation code the flag of the
transactions filter at that original index, so that skipped slots before it
do not shift the codes; and the validation codes of the output are, in order,
the flags at the original indices of the surviving slots. Already in the
loop body, a slot that emits a transaction at index `txIndex` gives it the
flag at `txIndex`. -/
theorem toFilteredBlock_validation_code (P : Imports) (block : blockEvent)
    (metadata : BlockMetadata) (txsFltr : Bytes) (pre : List (Option Bytes))
    (ebytes : Option Bytes) (post : List (Option Bytes)) (chdr : ChannelHeader)
    (fb : FilteredBlock) (hM : block.Metadata = some metadata)
    (hF : metadata.Metadata[P.BlockMetadataIndex_TRANSACTIONS_FILTER]? = some txsFltr)
    (hD : block.Data = some { Data := pre ++ ebytes :: post })
    (h : blockEvent.toFilteredBlock P block = .ret fb)
    (hs : slotChannelHeader P ebytes = some chdr) :
    (∃ t, fb.FilteredTransactions[(pre.filterMap (slotChannelHeader P)).length]? = some t ∧
      t.Txid = chdr.TxId ∧ t.Type_ = chdr.Type_ ∧
      TxValidationFlags.Flag txsFltr pre.length = some t.TxValidationCode) ∧
    fb.FilteredTransactions.map (fun t => some t.TxValidationCode) =
      (survivingIndices P 0 (pre ++ ebytes :: post)).map (TxValidationFlags.Flag txsFltr) ∧
    (∀ flags txIndex slot channelId ft,
      blockEvent.toFilteredBlock.body P flags txIndex slot = .emit channelId ft →
      TxValidationFlags.Flag flags txIndex = some ft.TxValidationCode) := by
  obtain ⟨header, metadata1, txsFltr1, data1, -, hM1, hF1, hD1, hloop⟩ :=
    toFilteredBlock_loop_inv P block (by rw [h]; intro p hp; contradiction)
  rw [hM] at hM1
  simp only [Option.some.injEq] at hM1
  subst hM1
  rw [hF] at hF1
  simp only [Option.some.injEq] at hF1
  subst hF1
  rw [hD] at hD1
  simp only [Option.some.injEq] at hD1
  subst hD1
  rw [hloop] at h
  refine ⟨loop_ret_at pre ebytes post _ fb chdr h rfl hs, ?_, ?_⟩
  · have := (loop_ret_spec _ _ _ _ h).2.2.1
    simpa using this
  · intro flags txIndex slot channelId ft hb
    obtain ⟨_, _, _, _, _, hflag⟩ := body_emit_inv hb
    exact hflag

/-- Claim C4 on the sample block: the slot at index 3 comes after an absent
slot, its transaction is at position 2 of the output, and its validation code
is the flag 13 at index 3, not the flag 12 at index 2. -/
theorem toFilteredBlock_validation_code_witness :
    blockEvent.toFilteredBlock sampleImports (sampleBlock 7 sampleSlots [10, 11, 12, 13, 14]) =
      .ret sampleFiltered ∧
    (∃ t, sampleFiltered.FilteredTransactions[2]? = some t ∧
      t.Txid = "tx3" ∧ t.Type_ = 3 ∧ some 13 = some t.TxValidationCode) ∧
    sampleFiltered.FilteredTransactions.map (fun t => some t.TxValidationCode) =
      [some 10, some 11, some 13, some 14] :=
  have h := toFilteredBlock_validation_code sampleImports
    (sampleBlock 7 sampleSlots [10, 11, 12, 13, 14])
    { Metadata := [[], [], [10, 11, 12, 13, 14]] }
    [10, 11, 12, 13, 14] [some [0, 1, 5, 1, 0], some [0, 1, 5, 1, 1], none]
    (some [0, 1, 3, 2, 3, 2, 0, 1, 3]) [some [0, 1, 5, 1, 4]]
    { Type_ := 3, ChannelId := "ch2", TxId := "tx3" } sampleFiltered rfl rfl rfl rfl rfl
  ⟨rfl, h.1, h.2.1⟩

/-- Claim C8. When `toFilteredBlock` succeeds, the channel id of the result is
that of the channel header of the last slot, in block order, that produced a
filtered transaction (the slots that do so being those whose channel header
decodes), whatever channel ids the earlier slots carry; it is empty when no
slot produced one. -/
theorem toFilteredBlock_channelId (P : Imports) (block : blockEvent) (data : BlockData)
    (fb : FilteredBlock) (hD : block.Data = some data)
    (h : blockEvent.toFilteredBlock P block = .ret fb) :
    fb.FilteredTransactions.length = (data.Data.filterMap (slotChannelHeader P)).length ∧
    fb.ChannelId =
      (((data.Data.filterMap (slotChannelHeader P)).getLast?).map (·.ChannelId)).getD "" := by
  obtain ⟨header, metadata, txsFltr, data1, -, -, -, hD1, hloop⟩ :=
    toFilteredBlock_loop_inv P block (by rw [h]; intro p hp; contradiction)
  rw [hD] at hD1
  simp only [Option.some.injEq] at hD1
  subst hD1
  rw [hloop] at h
  obtain ⟨-, h2, -, h4⟩ := loop_ret_spec _ _ _ _ h
  refine ⟨?_, h4⟩
  have := congrArg List.length h2
  simpa using this

/-- Claim C8 on sample blocks: the last surviving slot is on channel `ch1`
while an earlier one is on `ch2`, and the result is on `ch1`; a block none of
whose slots survives has the empty channel id. -/
theorem toFilteredBlock_channelId_witness :
    (sampleSlots.filterMap (slotChannelHeader sampleImports)).map (·.ChannelId) =
      ["ch1", "ch1", "ch2", "ch1"] ∧
    (sampleFiltered.FilteredTransactions.length = 4 ∧ sampleFiltered.ChannelId = "ch1") ∧
    blockEvent.toFilteredBlock sampleImports (sampleBlock 7 [none, some [5], some [0, 0]] []) =
      .ret { ChannelId := "", Number := 7, FilteredTransactions := [] } :=
  ⟨rfl,
    toFilteredBlock_channelId sampleImports (sampleBlock 7 sampleSlots [10, 11, 12, 13, 14])
      { Data := sampleSlots } sampleFiltered rfl rfl,
    rfl⟩

/-! ## Filtered chaincode actions -/

/-- One iteration of the loop of `toFilteredActions` on a non-nil action. -/
theorem toFilteredActions_loop_some (P : Imports) (action : TransactionAction)
    (rest : transactionActions) (acc : FilteredTransactionActions) :
    transactionActions.toFilteredActions.loop P (some action :: rest) acc =
      match P.GetChaincodeActionPayload action.Payload with
      | .error e =>
        .err (.WithMessage e "error unmarshal transaction action payload for block event")
      | .ok chaincodeActionPayload =>
        match chaincodeActionPayload.Action with
        | none => transactionActions.toFilteredActions.loop P rest acc
        | some endorsed =>
          match P.GetProposalResponsePayload endorsed.ProposalResponsePayload with
          | .error e =>
            .err (.WithMessage e "error unmarshal proposal response payload for block event")
          | .ok propRespPayload =>
            match P.GetChaincodeAction propRespPayload.Extension with
            | .error e =>
              .err (.WithMessage e "error unmarshal chaincode action for block event")
            | .ok caPayload =>
              match P.GetChaincodeEvents caPayload.Events with
              | .error e =>
                .err (.WithMessage e "error unmarshal chaincode event for block event")
              | .ok ccEvent =>
                if ccEvent.ChaincodeId ≠ "" then
                  transactionActions.toFilteredActions.loop P rest
                    { ChaincodeActions := acc.ChaincodeActions ++ [filteredActionOf ccEvent] }
                else
                  transactionActions.toFilteredActions.loop P rest acc := rfl

/-- What a successful run of the loop of `toFilteredActions` has appended: the
filtered actions of the events with a non-empty chaincode id, in the order of
the actions. -/
theorem toFilteredActions_loop_ret {P : Imports} :
    ∀ (ta : transactionActions) (acc r : FilteredTransactionActions),
      transactionActions.toFilteredActions.loop P ta acc = .ret r →
      r.ChaincodeActions = acc.ChaincodeActions ++
        ((ta.filterMap (actionEvent P)).filter
          (fun ev => decide (ev.ChaincodeId ≠ ""))).map filteredActionOf := by
  intro ta
  induction ta with
  | nil =>
    intro acc r h
    simp only [transactionActions.toFilteredActions.loop, Outcome.ret.injEq] at h
    subst h
    simp
  | cons a rest ih =>
    intro acc r h
    cases a with
    | none => simp [transactionActions.toFilteredActions.loop] at h
    | some action =>
      rw [toFilteredActions_loop_some] at h
      rw [List.filterMap_cons]
      split at h <;> try contradiction
      rename_i cap hcap
      split at h
      · rename_i hact
        have he : actionEvent P (some action) = none := by
          simp only [actionEvent, hcap, hact]
        rw [he]
        exact ih _ _ h
      · rename_i endorsed hact
        split at h <;> try contradiction
        rename_i prp hprp
        split at h <;> try contradiction
        rename_i ca hca
        split at h <;> try contradiction
        rename_i ev hev
        have he : actionEvent P (some action) = some ev := by
          simp only [actionEvent, hcap, hact, hprp, hca, hev]
        rw [he]
        split at h
        · rename_i hid
          rw [ih _ _ h]
          simp [List.filter_cons, hid]
        · rename_i hid
          rw [ih _ _ h]
          simp [List.filter_cons, hid]

/-- Claim C5. When `toFilteredActions` succeeds, the resulting chaincode
actions are, in order, one entry for each transaction action whose chaincode
action payload has a non-nil `Action` and whose chaincode event has a
non-empty chaincode id; each entry has the transaction id, the chaincode id
and the event name of the event and no payload. In particular a single action
whose event has an empty chaincode id gives no entry, one whose event has a
non-empty chaincode id gives exactly one, and an action with a nil `Action`
is skipped without an error. -/
theorem toFilteredActions_spec (P : Imports) (ta : transactionActions)
    (r : FilteredTransaction_TransactionActions)
    (h : transactionActions.toFilteredActions P ta = .ret r) :
    r.TransactionActions.ChaincodeActions =
      ((ta.filterMap (actionEvent P)).filter
        (fun ev => decide (ev.ChaincodeId ≠ ""))).map filteredActionOf ∧
    (∀ fa ∈ r.TransactionActions.ChaincodeActions,
      fa.ChaincodeEvent.Payload = [] ∧ fa.ChaincodeEvent.ChaincodeId ≠ "") ∧
    (∀ ev, (filteredActionOf ev).ChaincodeEvent.TxId = ev.TxId ∧
      (filteredActionOf ev).ChaincodeEvent.ChaincodeId = ev.ChaincodeId ∧
      (filteredActionOf ev).ChaincodeEvent.EventName = ev.EventName ∧
      (filteredActionOf ev).ChaincodeEvent.Payload = []) ∧
    (∀ a ev, actionEvent P (some a) = some ev → ev.ChaincodeId = "" →
      transactionActions.toFilteredActions P [some a] =
        .ret { TransactionActions := { ChaincodeActions := [] } }) ∧
    (∀ a ev, actionEvent P (some a) = some ev → ev.ChaincodeId ≠ "" →
      transactionActions.toFilteredActions P [some a] =
        .ret { TransactionActions := { ChaincodeActions := [filteredActionOf ev] } }) ∧
    (∀ a chaincodeActionPayload rest,
      P.GetChaincodeActionPayload a.Payload = .ok chaincodeActionPayload →
      chaincodeActionPayload.Action = none →
      transactionActions.toFilteredActions P (some a :: rest) =
        transactionActions.toFilteredActions P rest) := by
  have hmain : r.TransactionActions.ChaincodeActions =
      ((ta.filterMap (actionEvent P)).filter
        (fun ev => decide (ev.ChaincodeId ≠ ""))).map filteredActionOf := by
    unfold transactionActions.toFilteredActions at h
    split at h <;> try contradiction
    rename_i acc hacc
    simp only [Outcome.ret.injEq] at h
    subst h
    simpa using toFilteredActions_loop_ret ta _ _ hacc
  have hsingle : ∀ a ev, actionEvent P (some a) = some ev →
      transactionActions.toFilteredActions.loop P [some a] { ChaincodeActions := [] } =
        if ev.ChaincodeId ≠ "" then .ret { ChaincodeActions := [filteredActionOf ev] }
        else .ret { ChaincodeActions := [] } := by
    intro a ev hev
    rw [toFilteredActions_loop_some]
    unfold actionEvent at hev
    simp only at hev
    split at hev <;> try contradiction
    rename_i cap hcap
    split at hev <;> try contradiction
    rename_i endorsed hact
    split at hev <;> try contradiction
    rename_i prp hprp
    split at hev <;> try contradiction
    rename_i ca hca
    split at hev <;> try contradiction
    rename_i ev1 hev1
    simp only [Option.some.injEq] at hev
    subst hev
    simp only [hcap, hact, hprp, hca, hev1, transactionActions.toFilteredActions.loop,
      List.nil_append]
  refine ⟨hmain, ?_, fun ev => ⟨rfl, rfl, rfl, rfl⟩, ?_, ?_, ?_⟩
  · intro fa hfa
    rw [hmain] at hfa
    simp only [List.mem_map, List.mem_filter, decide_eq_true_eq] at hfa
    obtain ⟨ev, ⟨-, hid⟩, rfl⟩ := hfa
    exact ⟨rfl, hid⟩
  · intro a ev hev hid
    unfold transactionActions.toFilteredActions
    rw [hsingle a ev hev]
    simp [hid]
  · intro a ev hev hid
    unfold transactionActions.toFilteredActions
    rw [hsingle a ev hev]
    simp [hid]
  · intro a cap rest hcap hact
    unfold transactionActions.toFilteredActions
    rw [toFilteredActions_loop_some]
    simp only [hcap, hact]

/-- Claim C5 on the sample actions: of four actions, the one with a nil
`Action` and the one whose event has an empty chaincode id give no entry; a
single action with an empty chaincode id gives none and a single action with
a chaincode id gives one. -/
theorem toFilteredActions_spec_witness :
    transactionActions.toFilteredActions sampleImports sampleActions =
      .ret { TransactionActions := { ChaincodeActions :=
        [{ ChaincodeEvent :=
            { ChaincodeId := "cc2", TxId := "tx2", EventName := "ev2", Payload := [] } },
         { ChaincodeEvent :=
            { ChaincodeId := "cc3", TxId := "tx3", EventName := "ev3", Payload := [] } }] } } ∧
    ((sampleActions.filterMap (actionEvent sampleImports)).filter
        (fun ev => decide (ev.ChaincodeId ≠ ""))).map filteredActionOf =
      [{ ChaincodeEvent :=
          { ChaincodeId := "cc2", TxId := "tx2", EventName := "ev2", Payload := [] } },
       { ChaincodeEvent :=
          { ChaincodeId := "cc3", TxId := "tx3", EventName := "ev3", Payload := [] } }] ∧
    transactionActions.toFilteredActions sampleImports [some { Header := [], Payload := [1] }] =
      .ret { TransactionActions := { ChaincodeActions := [] } } ∧
    transactionActions.toFilteredActions sampleImports [some { Header := [], Payload := [2] }] =
      .ret { TransactionActions := { ChaincodeActions :=
        [{ ChaincodeEvent :=
            { ChaincodeId := "cc2", TxId := "tx2", EventName := "ev2", Payload := [] } }] } } :=
  have h := toFilteredActions_spec sampleImports sampleActions
    { TransactionActions := { ChaincodeActions :=
      [{ ChaincodeEvent :=
          { ChaincodeId := "cc2", TxId := "tx2", EventName := "ev2", Payload := [] } },
       { ChaincodeEvent :=
          { ChaincodeId := "cc3", TxId := "tx3", EventName := "ev3", Payload := [] } }] } } rfl
  ⟨rfl, h.1.symm,
    h.2.2.2.1 { Header := [], Payload := [1] }
      { ChaincodeId := "", TxId := "tx1", EventName := "ev1", Payload := [7] } rfl rfl,
    h.2.2.2.2.1 { Header := [], Payload := [2] }
      { ChaincodeId := "cc2", TxId := "tx2", EventName := "ev2", Payload := [7] } rfl
      (by decide)⟩

/-! ## The filtered response sender -/

/-- Claim C6. When `toFilteredBlock` returns an error on the block,
`filteredBlockResponseSender.SendBlockResponse` hands exactly one message to
the stream, the status response with code `BAD_REQUEST` (no filtered block is
sent), and returns what `Send` returned for that message, hence no error when
`Send` succeeds: the error of the filter is not what is returned. -/
theorem SendBlockResponse_filter_failure (P : Imports) (fbrs : filteredBlockResponseSender)
    (block : blockEvent) (e : GoError) (h : blockEvent.toFilteredBlock P block = .err e) :
    (fbrs.SendBlockResponse P (some block)).1.Deliver_DeliverFilteredServer.sent =
      fbrs.Deliver_DeliverFilteredServer.sent ++ [.Status P.Status_BAD_REQUEST] ∧
    (fbrs.SendBlockResponse P (some block)).2 =
      Outcome.ofError (fbrs.Deliver_DeliverFilteredServer.sendResult
        fbrs.Deliver_DeliverFilteredServer.sent (.Status P.Status_BAD_REQUEST)) ∧
    (fbrs.Deliver_DeliverFilteredServer.sendResult
        fbrs.Deliver_DeliverFilteredServer.sent (.Status P.Status_BAD_REQUEST) = none →
      (fbrs.SendBlockResponse P (some block)).2 = .ret ()) := by
  have hs : fbrs.SendBlockResponse P (some block) =
      ((fbrs.SendStatusResponse P.Status_BAD_REQUEST).1,
        Outcome.ofError (fbrs.SendStatusResponse P.Status_BAD_REQUEST).2) := by
    unfold filteredBlockResponseSender.SendBlockResponse
    simp only [h]
  rw [hs]
  refine ⟨rfl, rfl, ?_⟩
  intro hsend
  simp only [filteredBlockResponseSender.SendStatusResponse, Stream.Send, hsend,
    Outcome.ofError]

/-- Claim C6 on a sample block whose second slot has a malformed channel
header, sent on a stream whose transport does not fail: one `BAD_REQUEST`
status is sent and no error is returned. -/
theorem SendBlockResponse_filter_failure_witness :
    blockEvent.toFilteredBlock sampleImports
        (sampleBlock 7 [some [0, 1, 5, 1, 0], some [0, 2]] [10, 11]) =
      .err (.leaf "error unmarshaling ChannelHeader") ∧
    (filteredBlockResponseSender.SendBlockResponse sampleImports
        { Deliver_DeliverFilteredServer := sampleStream }
        (some (sampleBlock 7 [some [0, 1, 5, 1, 0], some [0, 2]] [10, 11]))
      ).1.Deliver_DeliverFilteredServer.sent = [.Status 400] ∧
    (filteredBlockResponseSender.SendBlockResponse sampleImports
        { Deliver_DeliverFilteredServer := sampleStream }
        (some (sampleBlock 7 [some [0, 1, 5, 1, 0], some [0, 2]] [10, 11]))).2 = .ret () :=
  have h := SendBlockResponse_filter_failure sampleImports
    { Deliver_DeliverFilteredServer := sampleStream }
    (sampleBlock 7 [some [0, 1, 5, 1, 0], some [0, 2]] [10, 11])
    (.leaf "error unmarshaling ChannelHeader") rfl
  ⟨rfl, h.1, h.2.2 rfl⟩

/-! ## The panic boundary of the deliver server -/

/-- A panic raised by the body passes through the deferred
`dumpStacktraceOnPanic`: its `recover` is called one call below the deferred
function and returns nil, so only the closing line is logged and the panic
stays in flight. -/
theorem deferDumpStacktraceOnPanic_fault (p : Fault) :
    deferDumpStacktraceOnPanic (.fault p) = (["Closing Deliver stream"], .fault p) := rfl

/-- Whatever the handler, the stream and the fault, a fault raised by the
generic handler is the outcome of `Deliver` and of `DeliverFiltered`. -/
theorem Deliver_fault (P : Imports) (s : DeliverServer) (srv : Stream) (p : Fault)
    (h : ∀ server, s.DeliverHandler server = .fault p) :
    (DeliverServer.Deliver P s srv).2 = .fault p ∧
      (DeliverServer.DeliverFiltered P s srv).2 = .fault p := by
  unfold DeliverServer.Deliver DeliverServer.DeliverFiltered
  simp only [h, deferDumpStacktraceOnPanic_fault, and_self]

/-- Claim C7 fails on the code. With a generic handler that raises a runtime
fault, both `Deliver` and `DeliverFiltered` end with that fault in flight: it
propagates to the caller instead of being caught at the boundary, and the
line reporting a caught panic is not logged. -/
theorem Deliver_propagates_panic :
    DeliverServer.Deliver sampleImports panickingServer sampleStream =
      (["Starting new Deliver handler", "Closing Deliver stream"],
        .fault (.raised "handler panic")) ∧
    DeliverServer.DeliverFiltered sampleImports panickingServer sampleStream =
      (["Starting new DeliverFiltered handler", "Closing Deliver stream"],
        .fault (.raised "handler panic")) :=
  ⟨rfl, rfl⟩

/-! ## The connection producer -/

/-- The shuffle is a permutation of the working set, whatever the draws. -/
theorem shuffle_perm : ∀ (draws : List Nat) (l : List String),
    (ConnectionProducer.shuffle draws l).Perm l
  | _, [] => by simp [ConnectionProducer.shuffle]
  | [], e :: es => by
    rw [ConnectionProducer.shuffle]
    exact (shuffle_perm [] es).cons e
  | r :: rs, e :: es => by
    rw [ConnectionProducer.shuffle]
    have hle : r % ((ConnectionProducer.shuffle rs es).length + 1) ≤
        (ConnectionProducer.shuffle rs es).length :=
      Nat.lt_succ_iff.mp (Nat.mod_lt _ (Nat.succ_pos _))
    exact (List.perm_insertIdx e _ hle).trans ((shuffle_perm rs es).cons e)

/-- The dial attempts over a list of endpoints: either every dial fails and no
connection and an error are returned, or the connection of an endpoint of the
list whose dial succeeded is returned with that endpoint and no error. -/
theorem dialAll_spec (cp : ConnectionProducer) : ∀ l : List String,
    ((∀ ep ∈ l, ∃ e, cp.connect ep cp.connectionTimeout = .error e) ∧
      ∃ e, ConnectionProducer.NewConnection.dialAll cp l = (none, "", some e)) ∨
    ∃ ep ∈ l, ∃ conn, cp.connect ep cp.connectionTimeout = .ok conn ∧
      ConnectionProducer.NewConnection.dialAll cp l = (some conn, ep, none)
  | [] => Or.inl ⟨by simp, _, rfl⟩
  | endpoint :: rest => by
    rw [ConnectionProducer.NewConnection.dialAll]
    cases hc : cp.connect endpoint cp.connectionTimeout with
    | ok conn => exact Or.inr ⟨endpoint, List.mem_cons_self _ _, conn, hc, rfl⟩
    | error e0 =>
      rcases dialAll_spec cp rest with ⟨hall, e, he⟩ | ⟨ep, hep, conn, hconn, hres⟩
      · refine Or.inl ⟨?_, e, he⟩
        intro ep hep
        rcases List.mem_cons.mp hep with rfl | hep
        · exact ⟨e0, hc⟩
        · exact hall ep hep
      · exact Or.inr ⟨ep, List.mem_cons_of_mem _ hep, conn, hconn, hres⟩

/-- Claim C9. For a non-empty working set and any dial function, whatever the
random draws, `NewConnection` returns no connection and a non-nil error if
and only if the dial fails for every endpoint of the working set; otherwise
it returns, without an error, a connection together with an endpoint of the
working set whose dial succeeded with that connection, so that an endpoint
whose dial fails is never returned. -/
theorem NewConnection_spec (cp : ConnectionProducer) (draws : List Nat)
    (_hne : cp.endpoints ≠ []) :
    (((cp.NewConnection draws).1 = none ∧ (cp.NewConnection draws).2.2 ≠ none) ↔
      ∀ ep ∈ cp.endpoints, ∃ e, cp.connect ep cp.connectionTimeout = .error e) ∧
    ((¬ ∀ ep ∈ cp.endpoints, ∃ e, cp.connect ep cp.connectionTimeout = .error e) →
      ∃ ep ∈ cp.endpoints, ∃ conn, cp.connect ep cp.connectionTimeout = .ok conn ∧
        cp.NewConnection draws = (some conn, ep, none)) := by
  have hmem : ∀ ep, ep ∈ ConnectionProducer.shuffle draws cp.endpoints ↔ ep ∈ cp.endpoints :=
    fun ep => (shuffle_perm draws cp.endpoints).mem_iff
  unfold ConnectionProducer.NewConnection
  rcases dialAll_spec cp (ConnectionProducer.shuffle draws cp.endpoints) with
    ⟨hall, e, he⟩ | ⟨ep, hep, conn, hconn, hres⟩
  · have hall1 : ∀ ep ∈ cp.endpoints, ∃ e, cp.connect ep cp.connectionTimeout = .error e :=
      fun ep hep => hall ep ((hmem ep).mpr hep)
    refine ⟨⟨fun _ => hall1, fun _ => ?_⟩, fun hn => absurd hall1 hn⟩
    rw [he]
    exact ⟨rfl, by simp⟩
  · have hep1 : ep ∈ cp.endpoints := (hmem ep).mp hep
    refine ⟨⟨fun h => ?_, fun h => ?_⟩, fun _ => ⟨ep, hep1, conn, hconn, hres⟩⟩
    · rw [hres] at h
      exact absurd h.1 (by simp)
    · obtain ⟨e, he⟩ := h ep hep1
      rw [hconn] at he
      contradiction

/-- Claim C9 on sample producers over `a`, `b`, `c`: when dialing `a` fails and
the draws put `a` first, the connection of `b` is returned with `b`; when
every dial fails, no connection and an error are returned. -/
theorem NewConnection_spec_witness :
    sampleProducer.endpoints ≠ [] ∧
    ConnectionProducer.shuffle [2, 0, 0] sampleProducer.endpoints = ["b", "c", "a"] ∧
    ConnectionProducer.shuffle [0, 0, 0] sampleProducer.endpoints = ["a", "b", "c"] ∧
    sampleProducer.NewConnection [0, 0, 0] = (some { handle := 2 }, "b", none) ∧
    (∃ ep ∈ sampleProducer.endpoints, ∃ conn,
      sampleProducer.connect ep sampleProducer.connectionTimeout = .ok conn ∧
        sampleProducer.NewConnection [0, 0, 0] = (some conn, ep, none)) ∧
    ((failingProducer.NewConnection [2, 0, 0]).1 = none ∧
      (failingProducer.NewConnection [2, 0, 0]).2.2 ≠ none) := by
  have hne : sampleProducer.endpoints ≠ [] := by simp [sampleProducer]
  have hb : sampleProducer.connect "b" sampleProducer.connectionTimeout = .ok { handle := 2 } := by
    simp [sampleProducer]
  refine ⟨hne, by decide, by decide, ?_, ?_, ?_⟩
  · simp [ConnectionProducer.NewConnection, ConnectionProducer.shuffle, sampleProducer,
      ConnectionProducer.NewConnection.dialAll]
  · refine (NewConnection_spec sampleProducer [0, 0, 0] hne).2 ?_
    intro hall
    obtain ⟨e, he⟩ := hall "b" (by simp [sampleProducer])
    rw [hb] at he
    contradiction
  · refine (NewConnection_spec failingProducer [2, 0, 0] (by simp [failingProducer])).1.mpr ?_
    intro ep _
    exact ⟨_, rfl⟩

/-! ## Endpoint criteria -/

/-- Membership test of a list of organizations. -/
theorem contains_organization (l : List String) (o : String) :
    l.contains o = true ↔ o ∈ l := List.elem_iff

/-- Claim C10. `x.Equals y` holds if and only if the endpoints are equal and
the organizations of `x` and `y` are equal as sets, that is have the same
members, whatever their order; so `{a, [o1, o2]}` equals `{a, [o2, o1]}` and
none of `{b, [o1, o2]}`, `{a, [o1, o2, o3]}`, `{a, [o1]}`, `{a, [o1, o3]}`. -/
theorem Equals_iff (x y : EndpointCriteria) :
    (x.Equals y = true ↔
      x.Endpoint = y.Endpoint ∧ ∀ o, o ∈ x.Organizations ↔ o ∈ y.Organizations) ∧
    EndpointCriteria.Equals ⟨"a", ["o1", "o2"]⟩ ⟨"a", ["o2", "o1"]⟩ = true ∧
    EndpointCriteria.Equals ⟨"a", ["o1", "o2"]⟩ ⟨"b", ["o1", "o2"]⟩ = false ∧
    EndpointCriteria.Equals ⟨"a", ["o1", "o2"]⟩ ⟨"a", ["o1", "o2", "o3"]⟩ = false ∧
    EndpointCriteria.Equals ⟨"a", ["o1", "o2"]⟩ ⟨"a", ["o1"]⟩ = false ∧
    EndpointCriteria.Equals ⟨"a", ["o1", "o2"]⟩ ⟨"a", ["o1", "o3"]⟩ = false := by
  refine ⟨?_, by decide, by decide, by decide, by decide, by decide⟩
  unfold EndpointCriteria.Equals
  simp only [Bool.and_eq_true, beq_iff_eq, List.all_eq_true, contains_organization]
  constructor
  · rintro ⟨hE, hlen, hsub⟩
    refine ⟨hE, ?_⟩
    have hss : x.Organizations.toFinset ⊆ y.Organizations.toFinset := by
      intro o ho
      rw [List.mem_toFinset] at ho ⊢
      exact hsub o ho
    have hcard : y.Organizations.toFinset.card ≤ x.Organizations.toFinset.card := by
      rw [List.card_toFinset, List.card_toFinset, hlen]
    have heq := Finset.eq_of_subset_of_card_le hss hcard
    intro o
    rw [← List.mem_toFinset, ← List.mem_toFinset, heq]
  · rintro ⟨hE, hmem⟩
    refine ⟨hE, ?_, fun o ho => (hmem o).mp ho⟩
    have heq : x.Organizations.toFinset = y.Organizations.toFinset := by
      ext o
      rw [List.mem_toFinset, List.mem_toFinset]
      exact hmem o
    rw [← List.card_toFinset, ← List.card_toFinset, heq]

/-! ## A slot that does not parse into an envelope -/

/-- Two slots on which the loop body agrees at every index can be exchanged
without changing the result of the loop. -/
theorem loop_congr_slot (P : Imports) (txsFltr : Bytes) (s t : Option Bytes)
    (hbody : ∀ k, blockEvent.toFilteredBlock.body P txsFltr k s =
      blockEvent.toFilteredBlock.body P txsFltr k t) :
    ∀ (pre post : List (Option Bytes)) (txIndex : Nat) (fb : FilteredBlock),
      blockEvent.toFilteredBlock.loop P txsFltr txIndex (pre ++ s :: post) fb =
        blockEvent.toFilteredBlock.loop P txsFltr txIndex (pre ++ t :: post) fb := by
  intro pre
  induction pre with
  | nil =>
    intro post txIndex fb
    simp only [List.nil_append]
    rw [loop_cons, loop_cons, hbody]
  | cons a pre ih =>
    intro post txIndex fb
    simp only [List.cons_append]
    rw [loop_cons, loop_cons]
    cases blockEvent.toFilteredBlock.body P txsFltr txIndex a with
    | skip => exact ih post _ _
    | emit channelId ft => exact ih post _ _
    | abort e => rfl
    | fault p => rfl

/-- Claim C11. On a block that contains a slot whose payload is present but
does not parse into an envelope, `toFilteredBlock` gives the same outcome
(the same error, the same fault, or the same filtered block, validation codes
of the other transactions included) as on the block in which that slot's
payload is replaced by an absent one: the envelope parse failure skips that
slot only. -/
theorem toFilteredBlock_envelope_failure (P : Imports) (block : blockEvent)
    (pre post : List (Option Bytes)) (raw : Bytes) (e : GoError)
    (hD : block.Data = some { Data := pre ++ some raw :: post })
    (hE : P.GetEnvelopeFromBlock raw = .error e) :
    blockEvent.toFilteredBlock P block =
      blockEvent.toFilteredBlock P
        { block with Data := some { Data := pre ++ none :: post } } := by
  have hbody : ∀ (txsFltr : Bytes) (k : Nat),
      blockEvent.toFilteredBlock.body P txsFltr k (some raw) =
        blockEvent.toFilteredBlock.body P txsFltr k none := by
    intro txsFltr k
    rw [body_skip_of_tolerated P txsFltr k (some raw) (Or.inr ⟨raw, rfl, Or.inl ⟨e, hE⟩⟩),
      body_skip_of_tolerated P txsFltr k none (Or.inl rfl)]
  unfold blockEvent.toFilteredBlock
  simp only [hD]
  cases hH : block.Header with
  | none => rfl
  | some header =>
    cases hM : block.Metadata with
    | none => rfl
    | some metadata =>
      cases hF : metadata.Metadata[P.BlockMetadataIndex_TRANSACTIONS_FILTER]? with
      | none => simp only [hF]
      | some txsFltr =>
        simp only [hF]
        exact loop_congr_slot P txsFltr (some raw) none (hbody txsFltr) pre post 0 _

/-- Claim C11 on a sample block: the second of three slots does not parse into
an envelope; the filtered block is the one obtained with that slot absent,
and the third slot keeps the validation code 12 of its own index. -/
theorem toFilteredBlock_envelope_failure_witness :
    sampleImports.GetEnvelopeFromBlock [5] = .error (.leaf "error unmarshaling Envelope") ∧
    blockEvent.toFilteredBlock sampleImports
        (sampleBlock 7 [some [0, 1, 5, 1, 0], some [5], some [0, 1, 5, 1, 1]] [10, 11, 12]) =
      blockEvent.toFilteredBlock sampleImports
        (sampleBlock 7 [some [0, 1, 5, 1, 0], none, some [0, 1, 5, 1, 1]] [10, 11, 12]) ∧
    blockEvent.toFilteredBlock sampleImports
        (sampleBlock 7 [some [0, 1, 5, 1, 0], none, some [0, 1, 5, 1, 1]] [10, 11, 12]) =
      .ret { ChannelId := "ch1", Number := 7
             FilteredTransactions :=
              [{ Txid := "tx0", Type_ := 5, TxValidationCode := 10, Data := none },
               { Txid := "tx1", Type_ := 5, TxValidationCode := 12, Data := none }] } :=
  ⟨rfl,
    toFilteredBlock_envelope_failure sampleImports
      (sampleBlock 7 [some [0, 1, 5, 1, 0], some [5], some [0, 1, 5, 1, 1]] [10, 11, 12])
      [some [0, 1, 5, 1, 0]] [some [0, 1, 5, 1, 1]] [5] (.leaf "error unmarshaling Envelope")
      rfl rfl,
    rfl⟩

/-! ## Faults of the filter -/

/-- A fault of the loop of `toFilteredActions` is the dereference of a nil
action pointer. -/
theorem toFilteredActions_loop_fault {P : Imports} {p : Fault} :
    ∀ (ta : transactionActions) (acc : FilteredTransactionActions),
      transactionActions.toFilteredActions.loop P ta acc = .fault p →
      p = .nilDereference ∧ none ∈ ta := by
  intro ta
  induction ta with
  | nil => intro acc h; simp [transactionActions.toFilteredActions.loop] at h
  | cons a rest ih =>
    intro acc h
    cases a with
    | none =>
      simp only [transactionActions.toFilteredActions.loop, Outcome.fault.injEq] at h
      exact ⟨h.symm, List.mem_cons_self _ _⟩
    | some action =>
      rw [toFilteredActions_loop_some] at h
      have hrest : ∀ acc1, transactionActions.toFilteredActions.loop P rest acc1 = .fault p →
          p = .nilDereference ∧ none ∈ some action :: rest :=
        fun acc1 h1 => ⟨(ih acc1 h1).1, List.mem_cons_of_mem _ (ih acc1 h1).2⟩
      split at h <;> try contradiction
      split at h
      · exact hrest _ h
      · split at h <;> try contradiction
        split at h <;> try contradiction
        split at h <;> try contradiction
        split at h
        · exact hrest _ h
        · exact hrest _ h

/-- A fault of `toFilteredActions` is the dereference of a nil action
pointer. -/
theorem toFilteredActions_fault {P : Imports} {p : Fault} {ta : transactionActions}
    (h : transactionActions.toFilteredActions P ta = .fault p) :
    p = .nilDereference ∧ none ∈ ta := by
  unfold transactionActions.toFilteredActions at h
  split at h <;> try contradiction
  rename_i q hq
  simp only [Outcome.fault.injEq] at h
  subst h
  exact toFilteredActions_loop_fault ta _ hq

/-- A slot that faults does so either on the lookup of its flag, which is then
out of range, or on a nil action pointer of a decoded transaction. -/
theorem body_fault_inv {P : Imports} {txsFltr : Bytes} {txIndex : Nat} {ebytes : Option Bytes}
    {p : Fault} (h : blockEvent.toFilteredBlock.body P txsFltr txIndex ebytes = .fault p) :
    (p = .indexOutOfRange ∧ TxValidationFlags.Flag txsFltr txIndex = none) ∨
    (p = .nilDereference ∧ ∃ raw tx, P.GetTransaction raw = .ok tx ∧ none ∈ tx.Actions) := by
  unfold blockEvent.toFilteredBlock.body at h
  split at h <;> try contradiction
  split at h <;> try contradiction
  split at h <;> try contradiction
  split at h <;> try contradiction
  split at h <;> try contradiction
  split at h
  · rename_i hF
    simp only [SlotResult.fault.injEq] at h
    exact Or.inl ⟨h.symm, hF⟩
  · split at h <;> try contradiction
    split at h <;> try contradiction
    rename_i payload _ _ _ _ _ _ _ _ tx hT
    split at h <;> try contradiction
    rename_i q hq
    simp only [SlotResult.fault.injEq] at h
    subst h
    obtain ⟨hp, hmem⟩ := toFilteredActions_fault hq
    exact Or.inr ⟨hp, _, tx, hT, hmem⟩

/-- When the loop faults, some slot did, at its own index. -/
theorem loop_fault_inv {P : Imports} {txsFltr : Bytes} {p : Fault} :
    ∀ (slots : List (Option Bytes)) (txIndex : Nat) (fb : FilteredBlock),
      blockEvent.toFilteredBlock.loop P txsFltr txIndex slots fb = .fault p →
      ∃ k ebytes, k < slots.length ∧
        blockEvent.toFilteredBlock.body P txsFltr (txIndex + k) ebytes = .fault p := by
  intro slots
  induction slots with
  | nil => intro txIndex fb h; simp [blockEvent.toFilteredBlock.loop] at h
  | cons s rest ih =>
    intro txIndex fb h
    rw [loop_cons] at h
    have hrest : ∀ fb1, blockEvent.toFilteredBlock.loop P txsFltr (txIndex + 1) rest fb1 =
        .fault p → ∃ k ebytes, k < (s :: rest).length ∧
          blockEvent.toFilteredBlock.body P txsFltr (txIndex + k) ebytes = .fault p := by
      intro fb1 h1
      obtain ⟨k, ebytes, hk, hb⟩ := ih _ _ h1
      refine ⟨k + 1, ebytes, by simpa using hk, ?_⟩
      rwa [show txIndex + (k + 1) = txIndex + 1 + k by omega]
    split at h
    · exact hrest _ h
    · exact hrest _ h
    · contradiction
    · rename_i q hb
      simp only [Outcome.fault.injEq] at h
      subst h
      exact ⟨0, s, by simp, by simpa using hb⟩

/-- The sample decoder of transactions yields no nil action pointer. -/
theorem sampleImports_actions_nonnil (raw : Bytes) (tx : Transaction)
    (h : sampleImports.GetTransaction raw = .ok tx) : none ∉ tx.Actions := by
  have hmap : tx.Actions = raw.map fun b => some { Header := [], Payload := [b] } := by
    unfold sampleImports at h
    simp only at h
    split at h
    · contradiction
    · simp only [Except.ok.injEq] at h
      rw [← h]
  rw [hmap]
  simp

/-- Claim C12. On a block whose header and data are present, whose metadata
has an entry at the transactions-filter index, and whose transactions filter
has at least as many entries as the block has slots, `toFilteredBlock` never
faults on an out-of-range index: the metadata lookup succeeds, the flag
lookup succeeds at every slot index, and the only fault left is the
dereference of a nil action pointer in a decoded transaction. With decoded
transactions free of nil action pointers, as the protobuf decoder yields
them, the call returns a filtered block or an error. -/
theorem toFilteredBlock_no_index_fault (P : Imports) (block : blockEvent)
    (header : BlockHeader) (data : BlockData) (metadata : BlockMetadata) (txsFltr : Bytes)
    (hH : block.Header = some header) (hD : block.Data = some data)
    (hM : block.Metadata = some metadata)
    (hF : metadata.Metadata[P.BlockMetadataIndex_TRANSACTIONS_FILTER]? = some txsFltr)
    (hlen : data.Data.length ≤ txsFltr.length) :
    blockEvent.toFilteredBlock P block ≠ .fault .indexOutOfRange ∧
    (∀ txIndex, txIndex < data.Data.length →
      ∃ code, TxValidationFlags.Flag txsFltr txIndex = some code) ∧
    (∀ p, blockEvent.toFilteredBlock P block = .fault p →
      p = .nilDereference ∧ ∃ raw tx, P.GetTransaction raw = .ok tx ∧ none ∈ tx.Actions) ∧
    ((∀ raw tx, P.GetTransaction raw = .ok tx → none ∉ tx.Actions) →
      (∃ fb, blockEvent.toFilteredBlock P block = .ret fb) ∨
        ∃ e, blockEvent.toFilteredBlock P block = .err e) := by
  have hflag : ∀ txIndex, txIndex < data.Data.length →
      ∃ code, TxValidationFlags.Flag txsFltr txIndex = some code := by
    intro txIndex hlt
    have hlt1 : txIndex < txsFltr.length := Nat.lt_of_lt_of_le hlt hlen
    exact ⟨txsFltr[txIndex], by simp [TxValidationFlags.Flag, List.getElem?_eq_getElem hlt1]⟩
  have hfault : ∀ p, blockEvent.toFilteredBlock P block = .fault p →
      p = .nilDereference ∧ ∃ raw tx, P.GetTransaction raw = .ok tx ∧ none ∈ tx.Actions := by
    intro p hp
    rw [toFilteredBlock_eq_loop hH hM hF hD] at hp
    obtain ⟨k, ebytes, hk, hb⟩ := loop_fault_inv _ _ _ hp
    rcases body_fault_inv hb with ⟨-, hnone⟩ | hnil
    · obtain ⟨code, hcode⟩ := hflag k hk
      simp only [Nat.zero_add] at hnone
      rw [hcode] at hnone
      contradiction
    · exact hnil
  refine ⟨?_, hflag, hfault, ?_⟩
  · intro hp
    have := (hfault _ hp).1
    contradiction
  · intro hnonnil
    cases hr : blockEvent.toFilteredBlock P block with
    | ret fb => exact Or.inl ⟨fb, rfl⟩
    | err e => exact Or.inr ⟨e, rfl⟩
    | fault p =>
      obtain ⟨-, raw, tx, htx, hmem⟩ := hfault p hr
      exact absurd hmem (hnonnil raw tx htx)

/-- Claim C12 on the sample block: five slots and a transactions filter of
five entries; no lookup is out of range and the filtered block is returned. A
filter one entry short makes the last slot fault on its flag lookup. -/
theorem toFilteredBlock_no_index_fault_witness :
    sampleSlots.length ≤ [10, 11, 12, 13, 14].length ∧
    blockEvent.toFilteredBlock sampleImports (sampleBlock 7 sampleSlots [10, 11, 12, 13, 14]) ≠
      .fault .indexOutOfRange ∧
    ((∃ fb, blockEvent.toFilteredBlock sampleImports
        (sampleBlock 7 sampleSlots [10, 11, 12, 13, 14]) = .ret fb) ∨
      ∃ e, blockEvent.toFilteredBlock sampleImports
        (sampleBlock 7 sampleSlots [10, 11, 12, 13, 14]) = .err e) ∧
    blockEvent.toFilteredBlock sampleImports (sampleBlock 7 sampleSlots [10, 11, 12, 13]) =
      .fault .indexOutOfRange :=
  have h := toFilteredBlock_no_index_fault sampleImports
    (sampleBlock 7 sampleSlots [10, 11, 12, 13, 14])
    { Number := 7, PreviousHash := [], DataHash := [] } { Data := sampleSlots }
    { Metadata := [[], [], [10, 11, 12, 13, 14]] } [10, 11, 12, 13, 14] rfl rfl rfl rfl
    (by decide)
  ⟨by decide, h.1, h.2.2.2 sampleImports_actions_nonnil, rfl⟩

end Fabric
